import Mathlib

/-!
Verification of the wildcard recursive download engine of `CFTPClient`
(src/FTP/FTPClient.cpp), against its natural-language specification.

The embedding models the LINUX configuration of the source (path separator
`'/'`).  The local filesystem and the libcurl transfer engine are external
collaborators; they are modelled here by `LocalFS` (directory set, file
contents, and an ambient `bad : String → Bool` predicate marking paths on
which creation/opening fails) and by `performWildcard`, which drives the
three callbacks of the source over a listing of the remote directory,
following the collaborator contract of the spec (item-announced hook may
abort the transfer, data hook writes chunks, item-complete hook fires after
every item; an empty listing yields `CURLE_REMOTE_FILE_NOT_FOUND`, the
error-78 case noted in the source).
-/

namespace FTPSpec

/-- Relevant libcurl status codes; `CURLE_CHUNK_FAILED` is the status a
`perform` call reports when a chunk-begin callback returned the abort
signal, and `CURLE_OTHER n` stands for any other failure code `n`. -/
inductive CURLcode where
  | CURLE_OK
  | CURLE_REMOTE_FILE_NOT_FOUND
  | CURLE_CHUNK_FAILED
  | CURLE_OTHER (n : Nat)
deriving DecidableEq, Repr

/-- Result values of the `CURLOPT_CHUNK_BGN_FUNCTION` callback used by the
source (`CURL_CHUNK_BGN_FUNC_OK` / `CURL_CHUNK_BGN_FUNC_FAIL`). -/
inductive ChunkBgnResult where
  | CURL_CHUNK_BGN_FUNC_OK
  | CURL_CHUNK_BGN_FUNC_FAIL
deriving DecidableEq, Repr

/-- Result value of the `CURLOPT_CHUNK_END_FUNCTION` callback. -/
inductive ChunkEndResult where
  | CURL_CHUNK_END_FUNC_OK
deriving DecidableEq, Repr

/-- File type tag of `curl_fileinfo`; entry types other than directory and
regular file are collapsed into `CURLFILETYPE_OTHER` (the source handles
them in a single `default` branch). -/
inductive CurlFileType where
  | CURLFILETYPE_DIRECTORY
  | CURLFILETYPE_FILE
  | CURLFILETYPE_OTHER
deriving DecidableEq, Repr

/-- The fields of `struct curl_fileinfo` read by the source callbacks. -/
structure CurlFileInfo where
  filename : String
  filetype : CurlFileType
deriving DecidableEq, Repr

/-- Last character of a string (the source indexes `s[s.length() - 1]`,
always on a string checked to be non-empty). -/
def lastChar (s : String) : Char :=
  s.data.getLastD ' '

/-- Drop the last character: `s.substr(0, s.length() - 1)` of the source. -/
def dropLastChar (s : String) : String :=
  ⟨s.data.dropLast⟩

/-- Model of the local filesystem collaborator: a set of existing
directories and a partial map from paths to byte contents.  Failure of
creation operations is injected by an ambient `bad` predicate passed to the
operations. -/
@[ext] structure LocalFS where
  dirs : List String
  files : String → Option (List Nat)

/-- POSIX `stat` check `stat(p) == 0 && (st_mode & S_IFDIR)`: a trailing
separator on the queried path is ignored, since `stat("d/")` succeeds for a
directory `d`. -/
def LocalFS.statIsDir (fs : LocalFS) (p : String) : Bool :=
  fs.dirs.contains (if lastChar p = '/' then dropLastChar p else p)

/-- Outcome of `mkdir`: success, failure with `errno == EEXIST`, or failure
for any other reason. -/
inductive MkdirResult where
  | ok
  | eexist
  | fail
deriving DecidableEq, Repr

/-- Model of `mkdir(p, ACCESSPERMS)`: an existing directory yields
`EEXIST`; a path marked bad fails for another reason; otherwise the
directory is created. -/
def LocalFS.mkdirM (bad : String → Bool) (fs : LocalFS) (p : String) :
    MkdirResult × LocalFS :=
  if fs.dirs.contains p then (.eexist, fs)
  else if bad p then (.fail, fs)
  else (.ok, { fs with dirs := p :: fs.dirs })

/-- Set the content of a file (create or overwrite). -/
def LocalFS.setFile (fs : LocalFS) (p : String) (c : List Nat) : LocalFS :=
  { fs with files := fun q => if q = p then some c else fs.files q }

/-- Model of `std::ofstream::open(p, out | binary | trunc)`: fails (stream
not open) on a bad path, otherwise truncates the file to empty content. -/
def LocalFS.openTrunc (bad : String → Bool) (fs : LocalFS) (p : String) :
    Option LocalFS :=
  if bad p then none else some (fs.setFile p [])

/-- Append bytes to a file (model of writing to an open output stream). -/
def LocalFS.appendFile (fs : LocalFS) (p : String) (c : List Nat) : LocalFS :=
  { fs with files := fun q => if q = p then some ((fs.files p).getD [] ++ c) else fs.files q }

/-- Model of `remove(p)`. -/
def LocalFS.removeFile (fs : LocalFS) (p : String) : LocalFS :=
  { fs with files := fun q => if q = p then none else fs.files q }

/-- The `WildcardTransfersCallbackData` structure of the source: the
separator-terminated output directory, the accumulated list of discovered
subdirectory names, and the currently open output file (`ofsOutput`),
modelled as the path of the open file, `none` when no file is open. -/
structure WildcardTransfersCallbackData where
  strOutputPath : String
  vecDirList : List String
  ofsOutput : Option String
deriving DecidableEq, Repr

/-- One level of the remote tree served by the FTP server: a directory
entry with its own listing, a regular file with its content delivered as a
list of data chunks, or an entry of any other type. -/
inductive RemoteEntry where
  | dirE (name : String) (children : List RemoteEntry)
  | fileE (name : String) (chunks : List (List Nat))
  | otherE (name : String)
deriving Repr

/-- The `curl_fileinfo` announced for an entry. -/
def entryInfo : RemoteEntry → CurlFileInfo
  | .dirE n _ => ⟨n, .CURLFILETYPE_DIRECTORY⟩
  | .fileE n _ => ⟨n, .CURLFILETYPE_FILE⟩
  | .otherE n => ⟨n, .CURLFILETYPE_OTHER⟩

/-- The data chunks delivered for an entry (only files carry data). -/
def entryChunks : RemoteEntry → List (List Nat)
  | .fileE _ cs => cs
  | _ => []

/-- Transcription of `CFTPClient::FileIsComingCallback`
(src/FTP/FTPClient.cpp lines 1139-1194): a directory entry is appended to
`vecDirList` (before the creation attempt, as in the source) and the local
directory is created, tolerating `EEXIST`; any other creation failure
returns the abort signal.  A file entry opens the local output file,
truncating; an open failure returns the abort signal.  Other entry types
are accepted with no side effect. -/
def FileIsComingCallback (bad : String → Bool) (fs : LocalFS)
    (finfo : CurlFileInfo) (data : WildcardTransfersCallbackData) :
    ChunkBgnResult × WildcardTransfersCallbackData × LocalFS :=
  match finfo.filetype with
  | .CURLFILETYPE_DIRECTORY =>
    let data' := { data with vecDirList := data.vecDirList ++ [finfo.filename] }
    match LocalFS.mkdirM bad fs (data.strOutputPath ++ finfo.filename) with
    | (.fail, fs') => (.CURL_CHUNK_BGN_FUNC_FAIL, data', fs')
    | (_, fs') => (.CURL_CHUNK_BGN_FUNC_OK, data', fs')
  | .CURLFILETYPE_FILE =>
    match LocalFS.openTrunc bad fs (data.strOutputPath ++ finfo.filename) with
    | some fs' =>
      (.CURL_CHUNK_BGN_FUNC_OK,
       { data with ofsOutput := some (data.strOutputPath ++ finfo.filename) }, fs')
    | none => (.CURL_CHUNK_BGN_FUNC_FAIL, data, fs)
  | .CURLFILETYPE_OTHER => (.CURL_CHUNK_BGN_FUNC_OK, data, fs)

/-- Transcription of `CFTPClient::WriteItCallback` (lines 1223-1239): when
an output file is open the chunk is written to it and the byte count is
reported; when no file is open nothing is written and 0 is reported. -/
def WriteItCallback (fs : LocalFS) (buff : List Nat)
    (data : WildcardTransfersCallbackData) : Nat × LocalFS :=
  match data.ofsOutput with
  | some p => (buff.length, fs.appendFile p buff)
  | none => (0, fs)

/-- Transcription of `CFTPClient::FileIsDownloadedCallback` (lines
1203-1211): closes the output file if one is open, then reports
`CURL_CHUNK_END_FUNC_OK` in all cases. -/
def FileIsDownloadedCallback (data : WildcardTransfersCallbackData) :
    ChunkEndResult × WildcardTransfersCallbackData :=
  match data.ofsOutput with
  | some _ => (.CURL_CHUNK_END_FUNC_OK, { data with ofsOutput := none })
  | none => (.CURL_CHUNK_END_FUNC_OK, data)

/-- Deliver the data chunks of one item through `WriteItCallback`.  The
callback data is not modified by the write hook. -/
def writeChunks (fs : LocalFS) (data : WildcardTransfersCallbackData) :
    List (List Nat) → LocalFS
  | [] => fs
  | c :: rest => writeChunks (WriteItCallback fs c data).2 data rest

/-- Modelled from the spec (transfer-session collaborator, spec section 6):
processing of one announced item during a `perform` call.  The
item-announced hook fires first; its abort signal aborts the enumeration.
Otherwise the item's data chunks are delivered to the write hook and the
item-complete hook fires before the next item.  The returned `Bool` is
`false` when the item aborted the enumeration. -/
def processEntry (bad : String → Bool) (fs : LocalFS)
    (data : WildcardTransfersCallbackData) (e : RemoteEntry) :
    Bool × WildcardTransfersCallbackData × LocalFS :=
  match FileIsComingCallback bad fs (entryInfo e) data with
  | (.CURL_CHUNK_BGN_FUNC_FAIL, d', f') => (false, d', f')
  | (.CURL_CHUNK_BGN_FUNC_OK, d', f') =>
    let f'' := writeChunks f' d' (entryChunks e)
    (true, (FileIsDownloadedCallback d').2, f'')

/-- Sequential processing of the items of one directory level; aborts at
the first item whose announcement returned the abort signal. -/
def goEntries (bad : String → Bool) (fs : LocalFS)
    (data : WildcardTransfersCallbackData) :
    List RemoteEntry → Bool × WildcardTransfersCallbackData × LocalFS
  | [] => (true, data, fs)
  | e :: rest =>
    match processEntry bad fs data e with
    | (true, d', f') => goEntries bad f' d' rest
    | (false, d', f') => (false, d', f')

/-- Modelled from the spec (transfer-session collaborator): one blocking
wildcard `perform` call over the listing of one remote directory level.  An
empty listing reports `CURLE_REMOTE_FILE_NOT_FOUND` (error 78, see the
source comment at line 751); an aborted enumeration reports
`CURLE_CHUNK_FAILED`; otherwise `CURLE_OK`. -/
def performWildcard (bad : String → Bool) (fs : LocalFS)
    (data : WildcardTransfersCallbackData) (entries : List RemoteEntry) :
    CURLcode × WildcardTransfersCallbackData × LocalFS :=
  if entries.isEmpty then (.CURLE_REMOTE_FILE_NOT_FOUND, data, fs)
  else
    let g := goEntries bad fs data entries
    if g.1 then (.CURLE_OK, g.2.1, g.2.2)
    else (.CURLE_CHUNK_FAILED, g.2.1, g.2.2)

/-- Client configuration state relevant to the modelled operations:
whether the `ENABLE_LOG` settings flag is set, whether the curl session is
initialized (`m_pCurlSession != nullptr`), and the server string used in
log messages. -/
structure ClientConfig where
  enableLog : Bool
  sessionInit : Bool
  server : String
deriving Repr

/-- Diagnostic messages sent to the logging collaborator `m_oLog`,
abstracting the `StringFormat` format strings of the source. -/
inductive LogMsg where
  | errorCurlNotInit
  | errorDirGetwild (outputPath : String)
  | errorCurlGetwild (server : String) (pattern : String) (code : CURLcode)
  | errorCurlGetwildRec (childPattern : String) (childLocalPath : String)
  | errorFileGetfile
  | errorCurlGetfile (server : String) (remoteFile : String) (code : CURLcode)
deriving DecidableEq, Repr

/-- Normalization of the local directory to end with the path separator
(line 718 of the source, LINUX configuration). -/
def normDir (s : String) : String :=
  s ++ (if lastChar s ≠ '/' then "/" else "")

/-- The directory entries of a listing, as pairs of the announced name and
the directory's own listing (used by the recursion of the engine). -/
def dirPairs : List RemoteEntry → List (String × List RemoteEntry)
  | [] => []
  | .dirE n cs :: rest => (n, cs) :: dirPairs rest
  | .fileE _ _ :: rest => dirPairs rest
  | .otherE _ :: rest => dirPairs rest

/-- Result of one `DownloadWildcard` invocation: the boolean return value,
the filesystem after the call, all diagnostics sent to the logging
collaborator (including those of nested recursive calls), the argument
pairs (local path, remote pattern) of the recursive calls issued at this
level, their boolean results, and the total number of `perform` calls
issued (network operations). -/
structure WildResult where
  ret : Bool
  fs : LocalFS
  logs : List LogMsg
  calls : List (String × String)
  childRets : List Bool
  performCount : Nat

/-- Result of the recursion loop over the discovered subdirectories. -/
structure DirsResult where
  ret : Bool
  fs : LocalFS
  logs : List LogMsg
  calls : List (String × String)
  rets : List Bool
  performCount : Nat

mutual

/-- Number of nodes of one remote entry (at least 1). -/
def sizeE : RemoteEntry → Nat
  | .dirE _ cs => 1 + sizeL cs
  | .fileE _ _ => 1
  | .otherE _ => 1

/-- Number of nodes of a remote listing. -/
def sizeL : List RemoteEntry → Nat
  | [] => 0
  | e :: rest => sizeE e + sizeL rest

end

theorem sizeL_lt_of_mem_dirPairs {d : String} {cs : List RemoteEntry}
    {entries : List RemoteEntry} (h : (d, cs) ∈ dirPairs entries) :
    sizeL cs < sizeL entries := by
  induction entries with
  | nil => simp [dirPairs] at h
  | cons e rest ih =>
    cases e with
    | dirE n ncs =>
      simp only [dirPairs, List.mem_cons] at h
      rcases h with h | h
      · cases h
        simp [sizeL, sizeE]
        omega
      · have := ih h
        simp [sizeL, sizeE]
        omega
    | fileE n ncs =>
      have := ih (by simpa [dirPairs] using h)
      simp [sizeL, sizeE]
      omega
    | otherE n =>
      have := ih (by simpa [dirPairs] using h)
      simp [sizeL, sizeE]
      omega

/-- The recursion loop of `DownloadWildcard` (lines 766-777): one recursive
call per discovered subdirectory, in order.  `child fs localDir pattern
listing` performs the recursive `DownloadWildcard` call (it is instantiated
with `DownloadWildcardF fuel cfg bad` below).  The child local path is
`strOutputPath + Dir` and the child pattern is `strBaseUrl + Dir + "/*"`; a
failed child is logged (unconditionally, exactly as at line 772 of the
source, which omits the `ENABLE_LOG` check used at every other log site)
and makes the aggregate result `false`, but the loop continues with the
next sibling. -/
def DownloadDirsF (child : LocalFS → String → String → List RemoteEntry → WildResult)
    (fs : LocalFS) (outPath base : String) :
    List (String × List RemoteEntry) → DirsResult
  | [] => ⟨true, fs, [], [], [], 0⟩
  | (d, cs) :: rest =>
    let r := child fs (outPath ++ d) (base ++ d ++ "/*") cs
    let extra :=
      if r.ret then []
      else [LogMsg.errorCurlGetwildRec (base ++ d ++ "/*") (outPath ++ d)]
    let t := DownloadDirsF child r.fs outPath base rest
    ⟨r.ret && t.ret, t.fs, r.logs ++ extra ++ t.logs,
     (outPath ++ d, base ++ d ++ "/*") :: t.calls, r.ret :: t.rets,
     r.performCount + t.performCount⟩

/-- Fuel-indexed transcription of `CFTPClient::DownloadWildcard`
(src/FTP/FTPClient.cpp lines 699-786, LINUX configuration).  The perform
call is modelled by `performWildcard` over the listing `entries` denoted by
the remote pattern.  The recursion loop of the source iterates over
`data.vecDirList`; here it iterates over `dirPairs entries`, whose names
coincide with the collected `vecDirList` on every path on which the source
reaches the loop (theorem `vecDirList_of_perform_ok`), pairing each name
with the listing the server serves for the corresponding child pattern.
The fuel argument only forces termination of the embedding; `sizeL entries + 1` is always sufficient (the exhaustion branch is unreachable from
`DownloadWildcard` below). -/
def DownloadWildcardF : Nat → ClientConfig → (String → Bool) → LocalFS →
    String → String → List RemoteEntry → WildResult
  | 0, _, _, fs, _, _, _ => ⟨false, fs, [], [], [], 0⟩
  | fuel + 1, cfg, bad, fs, strLocalDir, strRemoteWildcard, entries =>
    if strLocalDir.isEmpty || strRemoteWildcard.isEmpty then
      ⟨false, fs, [], [], [], 0⟩
    else if cfg.sessionInit = false then
      ⟨false, fs, if cfg.enableLog then [.errorCurlNotInit] else [], [], [], 0⟩
    else
      let strOutputPath := normDir strLocalDir
      if fs.statIsDir strOutputPath then
        let pr := performWildcard bad fs ⟨strOutputPath, [], none⟩ entries
        if pr.1 ≠ CURLcode.CURLE_OK ∧ pr.1 ≠ CURLcode.CURLE_REMOTE_FILE_NOT_FOUND then
          ⟨false, pr.2.2,
           if cfg.enableLog then [.errorCurlGetwild cfg.server strRemoteWildcard pr.1] else [],
           [], [], 1⟩
        else if pr.2.1.vecDirList ≠ [] ∧ lastChar strRemoteWildcard = '*' then
          let b0 := dropLastChar strRemoteWildcard
          let strBaseUrl := if b0.isEmpty = false ∧ lastChar b0 ≠ '/' then b0 ++ "/" else b0
          let t := DownloadDirsF (DownloadWildcardF fuel cfg bad) pr.2.2
                     strOutputPath strBaseUrl (dirPairs entries)
          ⟨t.ret, t.fs, t.logs, t.calls, t.rets, 1 + t.performCount⟩
        else
          ⟨true, pr.2.2, [], [], [], 1⟩
      else
        ⟨false, fs, if cfg.enableLog then [.errorDirGetwild strOutputPath] else [], [], [], 0⟩

/-- `CFTPClient::DownloadWildcard`: the fuel-indexed model at its canonical
sufficient fuel.  Every nested listing is strictly smaller than `entries`,
so `sizeL entries + 1` steps of fuel can never be exhausted. -/
def DownloadWildcard (cfg : ClientConfig) (bad : String → Bool) (fs : LocalFS)
    (strLocalDir strRemoteWildcard : String) (entries : List RemoteEntry) :
    WildResult :=
  DownloadWildcardF (sizeL entries + 1) cfg bad fs strLocalDir strRemoteWildcard entries

/-- Transcription of `CFTPClient::DownloadFile` (src/FTP/FTPClient.cpp
lines 635-683).  `res` is the status reported by the blocking perform call
and `content` the byte stream delivered to the write callback during it
(written to the open output file before the status is inspected).  On a
non-success status the output file is closed, removed from local storage,
and `false` is returned; on success the file keeps the downloaded bytes. -/
def DownloadFile (cfg : ClientConfig) (bad : String → Bool) (fs : LocalFS)
    (strLocalFile strRemoteFile : String) (res : CURLcode) (content : List Nat) :
    Bool × LocalFS × List LogMsg :=
  if strLocalFile.isEmpty || strRemoteFile.isEmpty then (false, fs, [])
  else if cfg.sessionInit = false then
    (false, fs, if cfg.enableLog then [.errorCurlNotInit] else [])
  else
    match LocalFS.openTrunc bad fs strLocalFile with
    | none => (false, fs, if cfg.enableLog then [.errorFileGetfile] else [])
    | some fs1 =>
      let fs2 := fs1.appendFile strLocalFile content
      if res ≠ CURLcode.CURLE_OK then
        (false, fs2.removeFile strLocalFile,
         if cfg.enableLog then [.errorCurlGetfile cfg.server strRemoteFile res] else [])
      else (true, fs2, [])

/-! Supporting lemmas about the filesystem model. -/

theorem setFile_files_self (fs : LocalFS) (p : String) (c : List Nat) :
    (fs.setFile p c).files p = some c := by
  simp [LocalFS.setFile]

theorem setFile_files_ne (fs : LocalFS) {q p : String} (h : q ≠ p) (c : List Nat) :
    (fs.setFile p c).files q = fs.files q := by
  simp [LocalFS.setFile, h]

theorem setFile_dirs (fs : LocalFS) (p : String) (c : List Nat) :
    (fs.setFile p c).dirs = fs.dirs := rfl

theorem appendFile_setFile (fs : LocalFS) (p : String) (c ch : List Nat) :
    (fs.setFile p c).appendFile p ch = fs.setFile p (c ++ ch) := by
  refine LocalFS.ext rfl ?_
  funext q
  by_cases h : q = p <;> simp [LocalFS.appendFile, LocalFS.setFile, h]

theorem setFile_of_files_eq {fs : LocalFS} {p : String} {c : List Nat}
    (h : fs.files p = some c) : fs.setFile p c = fs := by
  refine LocalFS.ext rfl ?_
  funext q
  by_cases hq : q = p
  · subst hq
    simp [LocalFS.setFile, h]
  · simp [LocalFS.setFile, hq]

theorem writeChunks_setFile (p : String) (data : WildcardTransfersCallbackData)
    (h : data.ofsOutput = some p) :
    ∀ (chunks : List (List Nat)) (fs : LocalFS) (c : List Nat),
      writeChunks (fs.setFile p c) data chunks = fs.setFile p (c ++ chunks.flatten) := by
  intro chunks
  induction chunks with
  | nil => intro fs c; simp [writeChunks]
  | cons ch rest ih =>
    intro fs c
    simp only [writeChunks, WriteItCallback, h, appendFile_setFile]
    rw [ih fs (c ++ ch)]
    simp [List.flatten]

/-! Characterization of the processing of a single announced item. -/

theorem fileIsDownloaded_eq (data : WildcardTransfersCallbackData) :
    FileIsDownloadedCallback data =
      (.CURL_CHUNK_END_FUNC_OK, ⟨data.strOutputPath, data.vecDirList, none⟩) := by
  cases data with
  | mk s v o => cases o <;> rfl

theorem processEntry_dirE_eexist {bad : String → Bool} {fs : LocalFS}
    {data : WildcardTransfersCallbackData} {d : String} {cs : List RemoteEntry}
    (h : data.strOutputPath ++ d ∈ fs.dirs) :
    processEntry bad fs data (.dirE d cs) =
      (true, ⟨data.strOutputPath, data.vecDirList ++ [d], none⟩, fs) := by
  simp [processEntry, FileIsComingCallback, entryInfo, entryChunks, LocalFS.mkdirM, h,
        writeChunks, fileIsDownloaded_eq]

theorem processEntry_dirE_new {bad : String → Bool} {fs : LocalFS}
    {data : WildcardTransfersCallbackData} {d : String} {cs : List RemoteEntry}
    (h : data.strOutputPath ++ d ∉ fs.dirs) (hb : bad (data.strOutputPath ++ d) = false) :
    processEntry bad fs data (.dirE d cs) =
      (true, ⟨data.strOutputPath, data.vecDirList ++ [d], none⟩,
       { fs with dirs := (data.strOutputPath ++ d) :: fs.dirs }) := by
  simp [processEntry, FileIsComingCallback, entryInfo, entryChunks, LocalFS.mkdirM, h, hb,
        writeChunks, fileIsDownloaded_eq]

theorem processEntry_dirE_fail {bad : String → Bool} {fs : LocalFS}
    {data : WildcardTransfersCallbackData} {d : String} {cs : List RemoteEntry}
    (h : data.strOutputPath ++ d ∉ fs.dirs) (hb : bad (data.strOutputPath ++ d) = true) :
    processEntry bad fs data (.dirE d cs) =
      (false, ⟨data.strOutputPath, data.vecDirList ++ [d], data.ofsOutput⟩, fs) := by
  simp [processEntry, FileIsComingCallback, entryInfo, entryChunks, LocalFS.mkdirM, h, hb]

theorem processEntry_fileE_ok {bad : String → Bool} {fs : LocalFS}
    {data : WildcardTransfersCallbackData} {n : String} {chunks : List (List Nat)}
    (hb : bad (data.strOutputPath ++ n) = false) :
    processEntry bad fs data (.fileE n chunks) =
      (true, ⟨data.strOutputPath, data.vecDirList, none⟩,
       fs.setFile (data.strOutputPath ++ n) chunks.flatten) := by
  simp only [processEntry, FileIsComingCallback, entryInfo, entryChunks,
             LocalFS.openTrunc, hb, if_neg Bool.false_ne_true]
  rw [writeChunks_setFile (data.strOutputPath ++ n) _ rfl chunks fs []]
  simp [fileIsDownloaded_eq]

theorem processEntry_fileE_fail {bad : String → Bool} {fs : LocalFS}
    {data : WildcardTransfersCallbackData} {n : String} {chunks : List (List Nat)}
    (hb : bad (data.strOutputPath ++ n) = true) :
    processEntry bad fs data (.fileE n chunks) = (false, data, fs) := by
  simp [processEntry, FileIsComingCallback, entryInfo, LocalFS.openTrunc, hb]

theorem processEntry_otherE (bad : String → Bool) (fs : LocalFS)
    (data : WildcardTransfersCallbackData) (n : String) :
    processEntry bad fs data (.otherE n) =
      (true, ⟨data.strOutputPath, data.vecDirList, none⟩, fs) := by
  simp [processEntry, FileIsComingCallback, entryInfo, entryChunks, writeChunks,
        fileIsDownloaded_eq]

/-- Combined facts about processing one item: the output path field is
never modified; after a non-aborted item the output file is closed and the
subdirectory list has grown by exactly the announced directory name (if
any); an aborted item leaves the output-file field unchanged; and the set
of local directories only grows. -/
theorem processEntry_spec (bad : String → Bool) (fs : LocalFS)
    (data : WildcardTransfersCallbackData) (e : RemoteEntry) :
    (processEntry bad fs data e).2.1.strOutputPath = data.strOutputPath ∧
    ((processEntry bad fs data e).1 = true →
      (processEntry bad fs data e).2.1.ofsOutput = none ∧
      (processEntry bad fs data e).2.1.vecDirList =
        data.vecDirList ++ (dirPairs [e]).map Prod.fst) ∧
    ((processEntry bad fs data e).1 = false →
      (processEntry bad fs data e).2.1.ofsOutput = data.ofsOutput) ∧
    (∀ p ∈ fs.dirs, p ∈ (processEntry bad fs data e).2.2.dirs) := by
  cases e with
  | dirE d cs =>
    by_cases h : data.strOutputPath ++ d ∈ fs.dirs
    · rw [processEntry_dirE_eexist h]
      simp [dirPairs]
    · by_cases hb : bad (data.strOutputPath ++ d) = true
      · rw [processEntry_dirE_fail h hb]
        simp [dirPairs]
      · rw [processEntry_dirE_new h (by simpa using hb)]
        simp [dirPairs]
        intro p hp
        exact Or.inr hp
  | fileE n chunks =>
    by_cases hb : bad (data.strOutputPath ++ n) = true
    · rw [processEntry_fileE_fail hb]
      simp
    · rw [processEntry_fileE_ok (by simpa using hb)]
      simp [dirPairs, setFile_dirs]
  | otherE n =>
    rw [processEntry_otherE]
    simp [dirPairs]

/-- Combined facts about one directory-level enumeration: the output-path
field is never modified; if no file was open initially then no file is
open when the enumeration finishes (aborted or not); on a complete
enumeration the collected subdirectory list is exactly the list of names of
the announced directory entries, in order; and the set of local
directories only grows. -/
theorem goEntries_spec (bad : String → Bool) :
    ∀ (entries : List RemoteEntry) (fs : LocalFS)
      (data : WildcardTransfersCallbackData),
    (goEntries bad fs data entries).2.1.strOutputPath = data.strOutputPath ∧
    (data.ofsOutput = none → (goEntries bad fs data entries).2.1.ofsOutput = none) ∧
    ((goEntries bad fs data entries).1 = true →
      (goEntries bad fs data entries).2.1.vecDirList =
        data.vecDirList ++ (dirPairs entries).map Prod.fst) ∧
    (∀ p ∈ fs.dirs, p ∈ (goEntries bad fs data entries).2.2.dirs) := by
  intro entries
  induction entries with
  | nil =>
    intro fs data
    simp [goEntries, dirPairs]
  | cons e rest ih =>
    intro fs data
    obtain ⟨hsop, hok, hfail, hdirs⟩ := processEntry_spec bad fs data e
    rcases hpr : processEntry bad fs data e with ⟨ok, d', f'⟩
    rw [hpr] at hsop hok hfail hdirs
    cases ok with
    | false =>
      simp only [goEntries, hpr]
      refine ⟨hsop, ?_, ?_, hdirs⟩
      · intro h0
        simpa [h0] using hfail rfl
      · intro h
        cases h
    | true =>
      obtain ⟨ihsop, ihofs, ihvec, ihdirs⟩ := ih f' d'
      simp only [goEntries, hpr]
      refine ⟨by rw [ihsop, hsop], ?_, ?_, ?_⟩
      · intro _
        exact ihofs (hok rfl).1
      · intro hgo
        rw [ihvec hgo, (hok rfl).2]
        cases e <;> simp [dirPairs]
      · intro p hp
        exact ihdirs p (hdirs p hp)

/-- If a prefix of the items enumerates without abort and the next item's
announcement returns the abort signal, the whole enumeration aborts at that
item, regardless of the items that follow. -/
theorem goEntries_abort_at {bad : String → Bool} :
    ∀ (pre : List RemoteEntry) (fs : LocalFS)
      (data d1 : WildcardTransfersCallbackData) (f1 : LocalFS)
      (e : RemoteEntry) (post : List RemoteEntry),
    goEntries bad fs data pre = (true, d1, f1) →
    (processEntry bad f1 d1 e).1 = false →
    (goEntries bad fs data (pre ++ e :: post)).1 = false := by
  intro pre
  induction pre with
  | nil =>
    intro fs data d1 f1 e post hpre habort
    simp only [goEntries] at hpre
    cases hpre
    rcases hpr : processEntry bad fs data e with ⟨ok, d', f'⟩
    rw [hpr] at habort
    simp at habort
    subst habort
    simp [goEntries, hpr]
  | cons a rest ih =>
    intro fs data d1 f1 e post hpre habort
    rcases hpr : processEntry bad fs data a with ⟨ok, d', f'⟩
    cases ok with
    | false =>
      rw [goEntries, hpr] at hpre
      simp at hpre
    | true =>
      rw [goEntries, hpr] at hpre
      simp at hpre
      rw [List.cons_append, goEntries, hpr]
      simpa using ih f' d' d1 f1 e post hpre habort

/-- An item aborts the enumeration exactly when its announcement callback
returned the abort signal. -/
theorem processEntry_fst_false_iff (bad : String → Bool) (fs : LocalFS)
    (data : WildcardTransfersCallbackData) (e : RemoteEntry) :
    (processEntry bad fs data e).1 = false ↔
      (FileIsComingCallback bad fs (entryInfo e) data).1 =
        ChunkBgnResult.CURL_CHUNK_BGN_FUNC_FAIL := by
  rcases h : FileIsComingCallback bad fs (entryInfo e) data with ⟨r, d', f'⟩
  cases r <;> simp [processEntry, h]

/-- A wildcard perform call that reports success has collected in
`vecDirList` exactly the names of the announced directory entries, in
announcement order (starting from an empty list). -/
theorem performWildcard_ok_vecDirList {bad : String → Bool} {fs : LocalFS}
    {op : String} {entries : List RemoteEntry}
    (h : (performWildcard bad fs ⟨op, [], none⟩ entries).1 = CURLcode.CURLE_OK) :
    (performWildcard bad fs ⟨op, [], none⟩ entries).2.1.vecDirList =
      (dirPairs entries).map Prod.fst := by
  by_cases he : entries.isEmpty
  · rw [performWildcard, if_pos he] at h
    cases h
  · have hspec := (goEntries_spec bad entries fs ⟨op, [], none⟩).2.2.1
    rcases hg : goEntries bad fs ⟨op, [], none⟩ entries with ⟨ok, d', f'⟩
    rw [hg] at hspec
    cases ok with
    | false =>
      rw [performWildcard, if_neg he] at h
      simp [hg] at h
    | true =>
      rw [performWildcard, if_neg he]
      simpa [hg] using hspec rfl

/-- The recursion loop issues one recursive call per discovered
subdirectory, in order, with local path `outPath ++ d` and remote pattern
`base ++ d ++ "/*"`, regardless of the outcomes of the calls. -/
theorem downloadDirsF_calls
    (child : LocalFS → String → String → List RemoteEntry → WildResult)
    (outPath base : String) :
    ∀ (pairs : List (String × List RemoteEntry)) (fs : LocalFS),
      (DownloadDirsF child fs outPath base pairs).calls =
        pairs.map (fun p => (outPath ++ p.1, base ++ p.1 ++ "/*")) := by
  intro pairs
  induction pairs with
  | nil => intro fs; rfl
  | cons p rest ih =>
    intro fs
    rcases p with ⟨d, cs⟩
    simp [DownloadDirsF, ih]

/-- The recursion loop records one boolean result per subdirectory. -/
theorem downloadDirsF_rets_length
    (child : LocalFS → String → String → List RemoteEntry → WildResult)
    (outPath base : String) :
    ∀ (pairs : List (String × List RemoteEntry)) (fs : LocalFS),
      (DownloadDirsF child fs outPath base pairs).rets.length = pairs.length := by
  intro pairs
  induction pairs with
  | nil => intro fs; rfl
  | cons p rest ih =>
    intro fs
    rcases p with ⟨d, cs⟩
    simp [DownloadDirsF, ih]

/-- The aggregate result of the recursion loop is the conjunction of the
individual recursive results. -/
theorem downloadDirsF_ret_eq_all
    (child : LocalFS → String → String → List RemoteEntry → WildResult)
    (outPath base : String) :
    ∀ (pairs : List (String × List RemoteEntry)) (fs : LocalFS),
      (DownloadDirsF child fs outPath base pairs).ret =
        (DownloadDirsF child fs outPath base pairs).rets.all id := by
  intro pairs
  induction pairs with
  | nil => intro fs; rfl
  | cons p rest ih =>
    intro fs
    rcases p with ⟨d, cs⟩
    simp [DownloadDirsF, ih]

/-- The aggregate result of the recursion loop is `false` exactly when some
recursive call returned `false`. -/
theorem downloadDirsF_ret_false_iff
    (child : LocalFS → String → String → List RemoteEntry → WildResult)
    (outPath base : String) :
    ∀ (pairs : List (String × List RemoteEntry)) (fs : LocalFS),
      ((DownloadDirsF child fs outPath base pairs).ret = false ↔
        false ∈ (DownloadDirsF child fs outPath base pairs).rets) := by
  intro pairs
  induction pairs with
  | nil =>
    intro fs
    simp [DownloadDirsF]
  | cons p rest ih =>
    intro fs
    rcases p with ⟨d, cs⟩
    simp only [DownloadDirsF, Bool.and_eq_false_iff, List.mem_cons]
    rw [← ih]
    constructor
    · rintro (h | h)
      · exact Or.inl (by simp [h])
      · exact Or.inr h
    · rintro (h | h)
      · exact Or.inl (by simpa using h)
      · exact Or.inr h

/-! Claim theorems C5, C6, C7. -/

/-- C5: for every directory entry announced during an enumeration, a
local-directory-creation failure with reason "already exists" is treated as
success (the announcement handler returns the continue signal, having
recorded the name), while a creation failure for any other reason makes the
handler return the abort signal; a file entry whose local output file
cannot be opened likewise returns the abort signal; and an abort signal
from the announcement handler makes that enumeration's perform call return
the non-success status `CURLE_CHUNK_FAILED`, whatever items follow. -/
theorem announce_failure_policy :
    (∀ (bad : String → Bool) (fs : LocalFS)
       (data : WildcardTransfersCallbackData) (name : String),
       data.strOutputPath ++ name ∈ fs.dirs →
       FileIsComingCallback bad fs ⟨name, .CURLFILETYPE_DIRECTORY⟩ data =
         (.CURL_CHUNK_BGN_FUNC_OK,
          { data with vecDirList := data.vecDirList ++ [name] }, fs)) ∧
    (∀ (bad : String → Bool) (fs : LocalFS)
       (data : WildcardTransfersCallbackData) (name : String),
       data.strOutputPath ++ name ∉ fs.dirs →
       bad (data.strOutputPath ++ name) = true →
       (FileIsComingCallback bad fs ⟨name, .CURLFILETYPE_DIRECTORY⟩ data).1 =
         ChunkBgnResult.CURL_CHUNK_BGN_FUNC_FAIL) ∧
    (∀ (bad : String → Bool) (fs : LocalFS)
       (data : WildcardTransfersCallbackData) (name : String),
       bad (data.strOutputPath ++ name) = true →
       (FileIsComingCallback bad fs ⟨name, .CURLFILETYPE_FILE⟩ data).1 =
         ChunkBgnResult.CURL_CHUNK_BGN_FUNC_FAIL) ∧
    (∀ (bad : String → Bool) (fs : LocalFS) (data : WildcardTransfersCallbackData)
       (pre : List RemoteEntry) (e : RemoteEntry) (post : List RemoteEntry)
       (d1 : WildcardTransfersCallbackData) (f1 : LocalFS),
       goEntries bad fs data pre = (true, d1, f1) →
       (FileIsComingCallback bad f1 (entryInfo e) d1).1 =
         ChunkBgnResult.CURL_CHUNK_BGN_FUNC_FAIL →
       (performWildcard bad fs data (pre ++ e :: post)).1 =
         CURLcode.CURLE_CHUNK_FAILED) := by
  refine ⟨?_, ?_, ?_, ?_⟩
  · intro bad fs data name h
    simp [FileIsComingCallback, LocalFS.mkdirM, h]
  · intro bad fs data name h hb
    simp [FileIsComingCallback, LocalFS.mkdirM, h, hb]
  · intro bad fs data name hb
    simp [FileIsComingCallback, LocalFS.openTrunc, hb]
  · intro bad fs data pre e post d1 f1 hpre hfail
    have habort : (processEntry bad f1 d1 e).1 = false :=
      (processEntry_fst_false_iff bad f1 d1 e).2 hfail
    have hgo := goEntries_abort_at pre fs data d1 f1 e post hpre habort
    have hne : (pre ++ e :: post).isEmpty = false := by
      cases pre <;> simp
    rcases hg2 : goEntries bad fs data (pre ++ e :: post) with ⟨ok, d2, f2⟩
    rw [hg2] at hgo
    simp at hgo
    subst hgo
    simp [performWildcard, hne, hg2]

/-- Witness for C5 at concrete inputs: an existing local directory is
tolerated; a creation failure for another reason and a failed file open
return the abort signal; the abort makes the perform call fail. -/
theorem announce_failure_policy_witness :
    FileIsComingCallback (fun _ => false) ⟨["o/d"], fun _ => none⟩
        ⟨"d", .CURLFILETYPE_DIRECTORY⟩ ⟨"o/", [], none⟩ =
      (.CURL_CHUNK_BGN_FUNC_OK, ⟨"o/", ["d"], none⟩, ⟨["o/d"], fun _ => none⟩) ∧
    (FileIsComingCallback (fun _ => true) ⟨[], fun _ => none⟩
        ⟨"d", .CURLFILETYPE_DIRECTORY⟩ ⟨"o/", [], none⟩).1 =
      ChunkBgnResult.CURL_CHUNK_BGN_FUNC_FAIL ∧
    (FileIsComingCallback (fun _ => true) ⟨[], fun _ => none⟩
        ⟨"f", .CURLFILETYPE_FILE⟩ ⟨"o/", [], none⟩).1 =
      ChunkBgnResult.CURL_CHUNK_BGN_FUNC_FAIL ∧
    (performWildcard (fun _ => true) ⟨[], fun _ => none⟩ ⟨"o/", [], none⟩
        [.fileE "f" [[1]]]).1 = CURLcode.CURLE_CHUNK_FAILED :=
  ⟨announce_failure_policy.1 (fun _ => false) ⟨["o/d"], fun _ => none⟩
      ⟨"o/", [], none⟩ "d" (by decide),
   announce_failure_policy.2.1 (fun _ => true) ⟨[], fun _ => none⟩
      ⟨"o/", [], none⟩ "d" (by decide) rfl,
   announce_failure_policy.2.2.1 (fun _ => true) ⟨[], fun _ => none⟩
      ⟨"o/", [], none⟩ "f" rfl,
   announce_failure_policy.2.2.2 (fun _ => true) ⟨[], fun _ => none⟩
      ⟨"o/", [], none⟩ [] (.fileE "f" [[1]]) [] ⟨"o/", [], none⟩
      ⟨[], fun _ => none⟩ rfl rfl⟩

/-- C6: a data chunk delivered by the write hook while no output file is
open is silently discarded (the filesystem is unchanged, nothing is
buffered) and no abort is signalled: the outcome of the write hook never
aborts the item, whose processing continues whenever its announcement
returned the continue signal.  When a file is open, the chunk is appended
to it. -/
theorem writeIt_discard_policy :
    (∀ (fs : LocalFS) (buff : List Nat) (data : WildcardTransfersCallbackData),
       data.ofsOutput = none → WriteItCallback fs buff data = (0, fs)) ∧
    (∀ (fs : LocalFS) (buff : List Nat) (data : WildcardTransfersCallbackData)
       (p : String),
       data.ofsOutput = some p →
       WriteItCallback fs buff data = (buff.length, fs.appendFile p buff)) ∧
    (∀ (bad : String → Bool) (fs : LocalFS) (data : WildcardTransfersCallbackData)
       (e : RemoteEntry),
       (FileIsComingCallback bad fs (entryInfo e) data).1 =
         ChunkBgnResult.CURL_CHUNK_BGN_FUNC_OK →
       (processEntry bad fs data e).1 = true) := by
  refine ⟨?_, ?_, ?_⟩
  · intro fs buff data h
    simp [WriteItCallback, h]
  · intro fs buff data p h
    simp [WriteItCallback, h]
  · intro bad fs data e h
    rcases hf : FileIsComingCallback bad fs (entryInfo e) data with ⟨r, d', f'⟩
    rw [hf] at h
    cases r
    · simp [processEntry, hf]
    · simp at h

/-- Witness for C6 at concrete inputs: with no open file the chunk is
dropped and the filesystem unchanged; with an open file it is appended; a
successfully announced file item never aborts. -/
theorem writeIt_discard_policy_witness :
    WriteItCallback ⟨[], fun _ => none⟩ [7, 8] ⟨"o/", [], none⟩ =
      (0, ⟨[], fun _ => none⟩) ∧
    WriteItCallback ⟨[], fun _ => none⟩ [7] ⟨"o/", [], some "o/f"⟩ =
      (1, LocalFS.appendFile ⟨[], fun _ => none⟩ "o/f" [7]) ∧
    (processEntry (fun _ => false) ⟨[], fun _ => none⟩ ⟨"o/", [], none⟩
        (.fileE "f" [[7]])).1 = true :=
  ⟨writeIt_discard_policy.1 ⟨[], fun _ => none⟩ [7, 8] ⟨"o/", [], none⟩ rfl,
   writeIt_discard_policy.2.1 ⟨[], fun _ => none⟩ [7] ⟨"o/", [], some "o/f"⟩ "o/f" rfl,
   writeIt_discard_policy.2.2 (fun _ => false) ⟨[], fun _ => none⟩ ⟨"o/", [], none⟩
      (.fileE "f" [[7]]) rfl⟩

/-- C7: the item-completion handler closes the currently open output file
when one is open and is a no-op otherwise; consequently, starting an
enumeration with no open file, no file remains open when its perform call
returns (every file opened by the announcement handler has been closed).
At most one output file can be open at any point of an enumeration, since
the transfer state holds a single output stream (`ofsOutput`). -/
theorem perform_closes_all_files :
    (∀ (data : WildcardTransfersCallbackData) (p : String),
       data.ofsOutput = some p →
       FileIsDownloadedCallback data =
         (.CURL_CHUNK_END_FUNC_OK, { data with ofsOutput := none })) ∧
    (∀ data : WildcardTransfersCallbackData,
       data.ofsOutput = none →
       FileIsDownloadedCallback data = (.CURL_CHUNK_END_FUNC_OK, data)) ∧
    (∀ (bad : String → Bool) (fs : LocalFS)
       (data : WildcardTransfersCallbackData) (entries : List RemoteEntry),
       data.ofsOutput = none →
       (performWildcard bad fs data entries).2.1.ofsOutput = none) := by
  refine ⟨?_, ?_, ?_⟩
  · intro data p h
    rw [fileIsDownloaded_eq]
  · intro data h
    rw [fileIsDownloaded_eq]
    cases data with
    | mk s v o =>
      simp at h
      subst h
      rfl
  · intro bad fs data entries h
    by_cases he : entries.isEmpty
    · simp [performWildcard, he, h]
    · have hofs := (goEntries_spec bad entries fs data).2.1 h
      rcases hg : goEntries bad fs data entries with ⟨ok, d', f'⟩
      rw [hg] at hofs
      cases ok <;> simp [performWildcard, he, hg] <;> exact hofs

/-- Witness for C7 at concrete inputs: closing an open file, the no-op
case, and a whole enumeration (which opens one file) ending with no open
file. -/
theorem perform_closes_all_files_witness :
    FileIsDownloadedCallback ⟨"o/", [], some "o/f"⟩ =
      (.CURL_CHUNK_END_FUNC_OK, ⟨"o/", [], none⟩) ∧
    FileIsDownloadedCallback ⟨"o/", [], none⟩ =
      (.CURL_CHUNK_END_FUNC_OK, ⟨"o/", [], none⟩) ∧
    (performWildcard (fun _ => false) ⟨[], fun _ => none⟩ ⟨"o/", [], none⟩
        [.fileE "a" [[1]], .dirE "s" []]).2.1.ofsOutput = none :=
  ⟨perform_closes_all_files.1 ⟨"o/", [], some "o/f"⟩ "o/f" rfl,
   perform_closes_all_files.2.1 ⟨"o/", [], none⟩ rfl,
   perform_closes_all_files.2.2 (fun _ => false) ⟨[], fun _ => none⟩
      ⟨"o/", [], none⟩ [.fileE "a" [[1]], .dirE "s" []] rfl⟩

/-! Claim theorems C1, C2, C3, C4. -/

/-- The child remote pattern as worded by the spec: strip the trailing
wildcard from the pattern, ensure a trailing separator (a non-empty base
not already ending in the separator gets one; an empty base needs no
separator before the child name), then append `d + "/*"`. -/
def specChildPattern (pat d : String) : String :=
  let base := dropLastChar pat
  (if base.isEmpty = false ∧ lastChar base ≠ '/' then base ++ "/" else base) ++ d ++ "/*"

/-- C1: whenever `DownloadWildcard` recurses (pattern ending in `'*'`,
successful enumeration, at least one discovered subdirectory), the
recursive call for each discovered subdirectory `d` targets the remote
pattern obtained by stripping the trailing `'*'`, ensuring a trailing
`'/'`, and appending `d ++ "/*"`, and the local path obtained by appending
`d` to the separator-terminated local output directory. -/
theorem downloadWildcard_child_call_targets
    (cfg : ClientConfig) (bad : String → Bool) (fs : LocalFS)
    (ld pat : String) (entries : List RemoteEntry)
    (h1 : ld.isEmpty = false) (h2 : pat.isEmpty = false)
    (hs : cfg.sessionInit = true)
    (hstat : fs.statIsDir (normDir ld) = true)
    (hok : (performWildcard bad fs ⟨normDir ld, [], none⟩ entries).1 =
      CURLcode.CURLE_OK)
    (hstar : lastChar pat = '*')
    (hne : dirPairs entries ≠ []) :
    (DownloadWildcard cfg bad fs ld pat entries).calls =
      (dirPairs entries).map (fun p => (normDir ld ++ p.1, specChildPattern pat p.1)) := by
  have hvec := performWildcard_ok_vecDirList hok
  have hvne : (performWildcard bad fs ⟨normDir ld, [], none⟩ entries).2.1.vecDirList ≠ [] := by
    rw [hvec]
    simpa using hne
  simp [DownloadWildcard, DownloadWildcardF, h1, h2, hs, hstat, hok, hvne, hstar,
        downloadDirsF_calls, specChildPattern]

/-- Witness for C1: the spec's own example, pattern `"reports/*"` with
discovered subdirectory `"2024"`, yields the recursive call
`("out/2024", "reports/2024/*")`. -/
theorem downloadWildcard_child_call_targets_witness :
    (DownloadWildcard ⟨true, true, "srv"⟩ (fun _ => false) ⟨["out"], fun _ => none⟩
        "out" "reports/*" [.dirE "2024" []]).calls = [("out/2024", "reports/2024/*")] := by
  have h := downloadWildcard_child_call_targets ⟨true, true, "srv"⟩ (fun _ => false)
    ⟨["out"], fun _ => none⟩ "out" "reports/*" [.dirE "2024" []]
    rfl rfl rfl (by decide) (by decide) (by decide) (by simp [dirPairs])
  rw [h]
  decide

/-- C2: for every recursion step, a recursive call is attempted for every
discovered subdirectory in order (the number of recorded calls and results
equals the number of subdirectories, independently of the outcomes); the
overall return value is the conjunction of all recursive results, and it is
`false` exactly when at least one recursive call failed. -/
theorem downloadWildcard_sibling_aggregation
    (cfg : ClientConfig) (bad : String → Bool) (fs : LocalFS)
    (ld pat : String) (entries : List RemoteEntry)
    (h1 : ld.isEmpty = false) (h2 : pat.isEmpty = false)
    (hs : cfg.sessionInit = true)
    (hstat : fs.statIsDir (normDir ld) = true)
    (hok : (performWildcard bad fs ⟨normDir ld, [], none⟩ entries).1 =
      CURLcode.CURLE_OK)
    (hstar : lastChar pat = '*')
    (hne : dirPairs entries ≠ []) :
    (DownloadWildcard cfg bad fs ld pat entries).calls.length =
      (dirPairs entries).length ∧
    (DownloadWildcard cfg bad fs ld pat entries).childRets.length =
      (dirPairs entries).length ∧
    (DownloadWildcard cfg bad fs ld pat entries).ret =
      (DownloadWildcard cfg bad fs ld pat entries).childRets.all id ∧
    ((DownloadWildcard cfg bad fs ld pat entries).ret = false ↔
      false ∈ (DownloadWildcard cfg bad fs ld pat entries).childRets) := by
  have hvec := performWildcard_ok_vecDirList hok
  have hvne : (performWildcard bad fs ⟨normDir ld, [], none⟩ entries).2.1.vecDirList ≠ [] := by
    rw [hvec]
    simpa using hne
  refine ⟨?_, ?_, ?_, ?_⟩ <;>
    simp [DownloadWildcard, DownloadWildcardF, h1, h2, hs, hstat, hok, hvne, hstar,
          downloadDirsF_calls, downloadDirsF_rets_length, downloadDirsF_ret_eq_all,
          downloadDirsF_ret_false_iff]

/-- Witness for C2: two subdirectories, the first failing (its own local
file path cannot be opened), the second succeeding: both are attempted, the
recorded results are `[false, true]`, and the aggregate is `false`. -/
theorem downloadWildcard_sibling_aggregation_witness :
    (DownloadWildcard ⟨true, true, "srv"⟩ (fun p => p == "out/a/f")
        ⟨["out"], fun _ => none⟩ "out" "r/*"
        [.dirE "a" [.fileE "f" [[1]]], .dirE "b" [.fileE "g" [[2]]]]).calls.length = 2 ∧
    (DownloadWildcard ⟨true, true, "srv"⟩ (fun p => p == "out/a/f")
        ⟨["out"], fun _ => none⟩ "out" "r/*"
        [.dirE "a" [.fileE "f" [[1]]], .dirE "b" [.fileE "g" [[2]]]]).childRets = [false, true] ∧
    (DownloadWildcard ⟨true, true, "srv"⟩ (fun p => p == "out/a/f")
        ⟨["out"], fun _ => none⟩ "out" "r/*"
        [.dirE "a" [.fileE "f" [[1]]], .dirE "b" [.fileE "g" [[2]]]]).ret = false := by
  refine ⟨?_, by decide, ?_⟩
  · exact (downloadWildcard_sibling_aggregation ⟨true, true, "srv"⟩ (fun p => p == "out/a/f")
      ⟨["out"], fun _ => none⟩ "out" "r/*"
      [.dirE "a" [.fileE "f" [[1]]], .dirE "b" [.fileE "g" [[2]]]]
      rfl rfl rfl (by decide) (by decide) (by decide) (by simp [dirPairs])).1.trans (by decide)
  · exact (downloadWildcard_sibling_aggregation ⟨true, true, "srv"⟩ (fun p => p == "out/a/f")
      ⟨["out"], fun _ => none⟩ "out" "r/*"
      [.dirE "a" [.fileE "f" [[1]]], .dirE "b" [.fileE "g" [[2]]]]
      rfl rfl rfl (by decide) (by decide) (by decide) (by simp [dirPairs])).2.2.2.2 (by decide)

/-- C3: when the perform call reports the "remote resource not found"
status with no subdirectories collected, `DownloadWildcard` returns `true`:
an empty remote directory is treated as success. -/
theorem downloadWildcard_empty_dir_success
    (cfg : ClientConfig) (bad : String → Bool) (fs : LocalFS)
    (ld pat : String) (entries : List RemoteEntry)
    (h1 : ld.isEmpty = false) (h2 : pat.isEmpty = false)
    (hs : cfg.sessionInit = true)
    (hstat : fs.statIsDir (normDir ld) = true)
    (hres : (performWildcard bad fs ⟨normDir ld, [], none⟩ entries).1 =
      CURLcode.CURLE_REMOTE_FILE_NOT_FOUND)
    (hvec : (performWildcard bad fs ⟨normDir ld, [], none⟩ entries).2.1.vecDirList = []) :
    (DownloadWildcard cfg bad fs ld pat entries).ret = true := by
  simp [DownloadWildcard, DownloadWildcardF, h1, h2, hs, hstat, hres, hvec]

/-- Witness for C3: an empty remote directory (empty listing, reported as
"not found") downloads as success. -/
theorem downloadWildcard_empty_dir_success_witness :
    (DownloadWildcard ⟨true, true, "srv"⟩ (fun _ => false) ⟨["out"], fun _ => none⟩
        "out" "r/*" []).ret = true :=
  downloadWildcard_empty_dir_success ⟨true, true, "srv"⟩ (fun _ => false)
    ⟨["out"], fun _ => none⟩ "out" "r/*" [] rfl rfl rfl (by decide) (by decide) (by decide)

/-- C4: for non-empty arguments, when the local output directory does not
exist on local storage as a directory, `DownloadWildcard` returns `false`
and issues no perform call (no network operation), whether or not the
session is initialized. -/
theorem downloadWildcard_missing_dir_no_network
    (cfg : ClientConfig) (bad : String → Bool) (fs : LocalFS)
    (ld pat : String) (entries : List RemoteEntry)
    (h1 : ld.isEmpty = false) (h2 : pat.isEmpty = false)
    (hstat : fs.statIsDir (normDir ld) = false) :
    (DownloadWildcard cfg bad fs ld pat entries).ret = false ∧
    (DownloadWildcard cfg bad fs ld pat entries).performCount = 0 := by
  cases hs : cfg.sessionInit <;>
    simp [DownloadWildcard, DownloadWildcardF, h1, h2, hs, hstat]

/-- Witness for C4: a missing local directory makes the call fail with zero
perform calls. -/
theorem downloadWildcard_missing_dir_no_network_witness :
    (DownloadWildcard ⟨true, true, "srv"⟩ (fun _ => false) ⟨[], fun _ => none⟩
        "out" "r/*" [.fileE "f" [[1]]]).ret = false ∧
    (DownloadWildcard ⟨true, true, "srv"⟩ (fun _ => false) ⟨[], fun _ => none⟩
        "out" "r/*" [.fileE "f" [[1]]]).performCount = 0 :=
  downloadWildcard_missing_dir_no_network ⟨true, true, "srv"⟩ (fun _ => false)
    ⟨[], fun _ => none⟩ "out" "r/*" [.fileE "f" [[1]]] rfl rfl (by decide)

/-! Claim theorem C9 (evaluation at the failing input) and C10. -/

/-- C9, failing input: with the `ENABLE_LOG` flag unset, a failed recursive
call still sends a diagnostic to the logging collaborator: the `m_oLog`
call at line 772 of the source is not guarded by `ENABLE_LOG`, unlike every
other log site of the class, so the claim that the collaborator is never
invoked when logging is disabled fails on the code. -/
theorem log_emitted_with_logging_disabled :
    (DownloadWildcard ⟨false, true, "srv"⟩ (fun p => p == "out/sub/f")
        ⟨["out"], fun _ => none⟩ "out" "r/*"
        [.dirE "sub" [.fileE "f" [[1]]]]).logs =
      [LogMsg.errorCurlGetwildRec "r/sub/*" "out/sub"] := by
  decide

/-- C10: for non-empty arguments and an initialized session, if the local
output file was opened but the perform call reports a non-success status,
`DownloadFile` returns `false` and the file is removed from local storage:
no partial download is left at the local path. -/
theorem downloadFile_removes_partial_on_failure
    (cfg : ClientConfig) (bad : String → Bool) (fs : LocalFS)
    (lf rf : String) (res : CURLcode) (content : List Nat)
    (h1 : lf.isEmpty = false) (h2 : rf.isEmpty = false)
    (hs : cfg.sessionInit = true)
    (hopen : bad lf = false)
    (hres : res ≠ CURLcode.CURLE_OK) :
    (DownloadFile cfg bad fs lf rf res content).1 = false ∧
    (DownloadFile cfg bad fs lf rf res content).2.1.files lf = none := by
  simp [DownloadFile, h1, h2, hs, LocalFS.openTrunc, hopen, hres, LocalFS.removeFile]

/-- Witness for C10: a failed perform call leaves no file at the local
path, even though bytes had been delivered to it. -/
theorem downloadFile_removes_partial_on_failure_witness :
    (DownloadFile ⟨true, true, "srv"⟩ (fun _ => false) ⟨[], fun _ => none⟩
        "out/f" "rem/f" (CURLcode.CURLE_OTHER 7) [1, 2]).1 = false ∧
    (DownloadFile ⟨true, true, "srv"⟩ (fun _ => false) ⟨[], fun _ => none⟩
        "out/f" "rem/f" (CURLcode.CURLE_OTHER 7) [1, 2]).2.1.files "out/f" = none :=
  downloadFile_removes_partial_on_failure ⟨true, true, "srv"⟩ (fun _ => false)
    ⟨[], fun _ => none⟩ "out/f" "rem/f" (CURLcode.CURLE_OTHER 7) [1, 2]
    rfl rfl rfl rfl (by decide)

/-! Footprint of a download: the local file paths written (with their final
contents) and the local directories created, over the whole recursive
descent.  Used to state and prove the idempotence claim. -/

mutual

/-- All local file writes performed for one remote entry (recursively):
a file entry writes its concatenated chunks at `op ++ name`; a directory
entry contributes the writes of its own subtree under the separator-
terminated child output directory. -/
def allFileWritesE (op : String) : RemoteEntry → List (String × List Nat)
  | .dirE d cs => allFileWritesL (normDir (op ++ d)) cs
  | .fileE n cs => [(op ++ n, cs.flatten)]
  | .otherE _ => []

/-- All local file writes performed for a remote listing (recursively). -/
def allFileWritesL (op : String) : List RemoteEntry → List (String × List Nat)
  | [] => []
  | e :: rest => allFileWritesE op e ++ allFileWritesL op rest

end

mutual

/-- All local directory paths created for one remote entry (recursively). -/
def allDirPathsE (op : String) : RemoteEntry → List String
  | .dirE d cs => (op ++ d) :: allDirPathsL (normDir (op ++ d)) cs
  | .fileE _ _ => []
  | .otherE _ => []

/-- All local directory paths created for a remote listing (recursively). -/
def allDirPathsL (op : String) : List RemoteEntry → List String
  | [] => []
  | e :: rest => allDirPathsE op e ++ allDirPathsL op rest

end

/-- The file writes performed during one single directory-level
enumeration (no recursion). -/
def levelFileWrites (op : String) : List RemoteEntry → List (String × List Nat)
  | [] => []
  | .fileE n cs :: rest => (op ++ n, cs.flatten) :: levelFileWrites op rest
  | .dirE _ _ :: rest => levelFileWrites op rest
  | .otherE _ :: rest => levelFileWrites op rest

/-- The directory paths created during one single directory-level
enumeration (no recursion). -/
def levelDirPaths (op : String) : List RemoteEntry → List String
  | [] => []
  | .dirE d _ :: rest => (op ++ d) :: levelDirPaths op rest
  | .fileE _ _ :: rest => levelDirPaths op rest
  | .otherE _ :: rest => levelDirPaths op rest

/-- The file writes performed by the recursive calls of the recursion
loop, one subtree per discovered subdirectory. -/
def pairsFileWrites (op : String) : List (String × List RemoteEntry) → List (String × List Nat)
  | [] => []
  | (d, cs) :: rest => allFileWritesL (normDir (op ++ d)) cs ++ pairsFileWrites op rest

/-- The directory paths created by the recursive calls of the recursion
loop (the subdirectory itself is created by the parent level, so only the
subtree's own directories appear here). -/
def pairsDirPaths (op : String) : List (String × List RemoteEntry) → List String
  | [] => []
  | (d, cs) :: rest => allDirPathsL (normDir (op ++ d)) cs ++ pairsDirPaths op rest

/-- The recursive write footprint decomposes (up to order) into the writes
of the level enumeration followed by the writes of the child subtrees. -/
theorem allFileWritesL_perm (op : String) :
    ∀ entries : List RemoteEntry,
      (allFileWritesL op entries).Perm
        (levelFileWrites op entries ++ pairsFileWrites op (dirPairs entries)) := by
  intro entries
  induction entries with
  | nil => simp [allFileWritesL, levelFileWrites, dirPairs, pairsFileWrites]
  | cons e rest ih =>
    cases e with
    | dirE d cs =>
      simp only [allFileWritesL, allFileWritesE, levelFileWrites, dirPairs, pairsFileWrites]
      refine (ih.append_left _).trans ?_
      simp only [← List.append_assoc]
      exact List.perm_append_comm.append_right _
    | fileE n cs =>
      simp only [allFileWritesL, allFileWritesE, levelFileWrites, dirPairs, pairsFileWrites,
                 List.singleton_append]
      exact ih.cons _
    | otherE n =>
      simpa [allFileWritesL, allFileWritesE, levelFileWrites, dirPairs, pairsFileWrites] using ih

/-- The recursive directory footprint decomposes (up to order) into the
directories created by the level enumeration followed by those of the
child subtrees. -/
theorem allDirPathsL_perm (op : String) :
    ∀ entries : List RemoteEntry,
      (allDirPathsL op entries).Perm
        (levelDirPaths op entries ++ pairsDirPaths op (dirPairs entries)) := by
  intro entries
  induction entries with
  | nil => simp [allDirPathsL, levelDirPaths, dirPairs, pairsDirPaths]
  | cons e rest ih =>
    cases e with
    | dirE d cs =>
      simp only [allDirPathsL, allDirPathsE, levelDirPaths, dirPairs, pairsDirPaths,
                 List.cons_append]
      refine List.Perm.cons _ ?_
      refine (ih.append_left _).trans ?_
      simp only [← List.append_assoc]
      exact List.perm_append_comm.append_right _
    | fileE n cs =>
      simpa [allDirPathsL, allDirPathsE, levelDirPaths, dirPairs, pairsDirPaths] using ih
    | otherE n =>
      simpa [allDirPathsL, allDirPathsE, levelDirPaths, dirPairs, pairsDirPaths] using ih

theorem mem_level_fileWrites {op : String} {entries : List RemoteEntry}
    {w : String × List Nat} (h : w ∈ levelFileWrites op entries) :
    w ∈ allFileWritesL op entries :=
  (allFileWritesL_perm op entries).mem_iff.2 (List.mem_append_left _ h)

theorem mem_pairs_fileWrites {op : String} {entries : List RemoteEntry}
    {w : String × List Nat} (h : w ∈ pairsFileWrites op (dirPairs entries)) :
    w ∈ allFileWritesL op entries :=
  (allFileWritesL_perm op entries).mem_iff.2 (List.mem_append_right _ h)

theorem mem_level_dirPaths {op : String} {entries : List RemoteEntry}
    {p : String} (h : p ∈ levelDirPaths op entries) :
    p ∈ allDirPathsL op entries :=
  (allDirPathsL_perm op entries).mem_iff.2 (List.mem_append_left _ h)

theorem mem_pairs_dirPaths {op : String} {entries : List RemoteEntry}
    {p : String} (h : p ∈ pairsDirPaths op (dirPairs entries)) :
    p ∈ allDirPathsL op entries :=
  (allDirPathsL_perm op entries).mem_iff.2 (List.mem_append_right _ h)

/-- Splitting the no-duplicate-paths hypothesis along the decomposition of
the write footprint into level writes and child-subtree writes. -/
theorem nodup_fileWrites_decomp {op : String} {entries : List RemoteEntry}
    (h : ((allFileWritesL op entries).map Prod.fst).Nodup) :
    ((levelFileWrites op entries).map Prod.fst).Nodup ∧
    ((pairsFileWrites op (dirPairs entries)).map Prod.fst).Nodup ∧
    (∀ q ∈ (levelFileWrites op entries).map Prod.fst,
      q ∉ (pairsFileWrites op (dirPairs entries)).map Prod.fst) := by
  have hp := ((allFileWritesL_perm op entries).map Prod.fst).nodup_iff.1
  rw [List.map_append] at hp
  have h2 := hp h
  rw [List.nodup_append] at h2
  exact ⟨h2.1, h2.2.1, h2.2.2⟩

/-- The write footprint of one discovered subdirectory is a sublist of the
footprint of the whole recursion loop. -/
theorem child_fileWrites_sublist {op : String} :
    ∀ (pairs : List (String × List RemoteEntry)) (d : String)
      (cs : List RemoteEntry), (d, cs) ∈ pairs →
      (allFileWritesL (normDir (op ++ d)) cs).Sublist (pairsFileWrites op pairs) := by
  intro pairs
  induction pairs with
  | nil => intro d cs h; simp at h
  | cons p rest ih =>
    intro d cs h
    rcases p with ⟨d0, cs0⟩
    rcases List.mem_cons.1 h with h | h
    · cases h
      simp only [pairsFileWrites]
      exact List.sublist_append_left _ _
    · simp only [pairsFileWrites]
      exact (ih d cs h).trans (List.sublist_append_right _ _)

/-- Success facts for one directory-level enumeration: all announced
directories exist locally afterwards; paths outside the level's write set
are untouched; with no duplicate level paths every level write is present
with its final content; and every level write path had a working open. -/
theorem goEntriesSuccessFacts (bad : String → Bool) :
    ∀ (entries : List RemoteEntry) (fs : LocalFS)
      (data d' : WildcardTransfersCallbackData) (f' : LocalFS),
      goEntries bad fs data entries = (true, d', f') →
      (∀ p ∈ levelDirPaths data.strOutputPath entries, p ∈ f'.dirs) ∧
      (∀ q, q ∉ (levelFileWrites data.strOutputPath entries).map Prod.fst →
        f'.files q = fs.files q) ∧
      (((levelFileWrites data.strOutputPath entries).map Prod.fst).Nodup →
        ∀ w ∈ levelFileWrites data.strOutputPath entries, f'.files w.1 = some w.2) ∧
      (∀ w ∈ levelFileWrites data.strOutputPath entries, bad w.1 = false) := by
  intro entries
  induction entries with
  | nil =>
    intro fs data d' f' h
    simp only [goEntries] at h
    cases h
    simp [levelDirPaths, levelFileWrites]
  | cons e rest ih =>
    intro fs data d' f' h
    cases e with
    | dirE d cs =>
      by_cases hmem : data.strOutputPath ++ d ∈ fs.dirs
      · simp only [goEntries, processEntry_dirE_eexist hmem] at h
        obtain ⟨ihdir, ihframe, ihcontent, ihbad⟩ := ih fs ⟨data.strOutputPath, data.vecDirList ++ [d], none⟩ d' f' h
        have hmono := (goEntries_spec bad rest fs ⟨data.strOutputPath, data.vecDirList ++ [d], none⟩).2.2.2
        rw [h] at hmono
        refine ⟨?_, ihframe, ihcontent, ihbad⟩
        intro p hp
        rcases List.mem_cons.1 hp with hp | hp
        · exact hmono _ (hp ▸ hmem)
        · exact ihdir p hp
      · by_cases hb : bad (data.strOutputPath ++ d) = true
        · simp [goEntries, processEntry_dirE_fail hmem hb] at h
        · simp only [goEntries, processEntry_dirE_new hmem (by simpa using hb)] at h
          obtain ⟨ihdir, ihframe, ihcontent, ihbad⟩ := ih _ ⟨data.strOutputPath, data.vecDirList ++ [d], none⟩ d' f' h
          have hmono := (goEntries_spec bad rest
            ⟨(data.strOutputPath ++ d) :: fs.dirs, fs.files⟩
            ⟨data.strOutputPath, data.vecDirList ++ [d], none⟩).2.2.2
          rw [h] at hmono
          refine ⟨?_, ihframe, ihcontent, ihbad⟩
          intro p hp
          rcases List.mem_cons.1 hp with hp | hp
          · exact hmono _ (by simp [hp])
          · exact ihdir p hp
    | fileE n cs =>
      by_cases hb : bad (data.strOutputPath ++ n) = true
      · simp [goEntries, processEntry_fileE_fail hb] at h
      · simp only [goEntries, processEntry_fileE_ok (by simpa using hb)] at h
        obtain ⟨ihdir, ihframe, ihcontent, ihbad⟩ := ih _ ⟨data.strOutputPath, data.vecDirList, none⟩ d' f' h
        simp only [levelDirPaths, levelFileWrites, List.map_cons, List.mem_cons] at *
        refine ⟨ihdir, ?_, ?_, ?_⟩
        · intro q hq
          push_neg at hq
          rw [ihframe q hq.2]
          exact setFile_files_ne fs hq.1 _
        · intro hnodup w hw
          have hnodup2 := hnodup
          rw [List.nodup_cons] at hnodup2
          rcases hw with hw | hw
          · subst hw
            rw [ihframe _ hnodup2.1]
            exact setFile_files_self fs _ _
          · exact ihcontent hnodup2.2 w hw
        · intro w hw
          rcases hw with hw | hw
          · subst hw
            simpa using hb
          · exact ihbad w hw
    | otherE n =>
      simp only [goEntries, processEntry_otherE] at h
      obtain ⟨ihdir, ihframe, ihcontent, ihbad⟩ := ih _ ⟨data.strOutputPath, data.vecDirList, none⟩ d' f' h
      exact ⟨ihdir, ihframe, ihcontent, ihbad⟩

/-- Replaying one directory-level enumeration over a filesystem that
already holds every level write with its final content and every announced
directory leaves the filesystem unchanged and succeeds, collecting the same
subdirectory names. -/
theorem goEntriesRestore (bad : String → Bool) :
    ∀ (entries : List RemoteEntry) (g : LocalFS)
      (data : WildcardTransfersCallbackData),
      data.ofsOutput = none →
      (∀ w ∈ levelFileWrites data.strOutputPath entries, g.files w.1 = some w.2) →
      (∀ p ∈ levelDirPaths data.strOutputPath entries, p ∈ g.dirs) →
      (∀ w ∈ levelFileWrites data.strOutputPath entries, bad w.1 = false) →
      goEntries bad g data entries =
        (true,
         ⟨data.strOutputPath, data.vecDirList ++ (dirPairs entries).map Prod.fst, none⟩,
         g) := by
  intro entries
  induction entries with
  | nil =>
    intro g data hofs _ _ _
    cases data with
    | mk s v o =>
      simp at hofs
      subst hofs
      simp [goEntries, dirPairs]
  | cons e rest ih =>
    intro g data hofs hw hd hb
    cases e with
    | dirE d cs =>
      have hmem : data.strOutputPath ++ d ∈ g.dirs :=
        hd (data.strOutputPath ++ d) (by simp [levelDirPaths])
      simp only [goEntries, processEntry_dirE_eexist hmem]
      rw [ih g ⟨data.strOutputPath, data.vecDirList ++ [d], none⟩ rfl
            (by simpa [levelFileWrites] using hw)
            (by intro p hp; exact hd p (by simp [levelDirPaths, hp]))
            (by simpa [levelFileWrites] using hb)]
      simp [dirPairs]
    | fileE n cs =>
      have hbn : bad (data.strOutputPath ++ n) = false :=
        hb (data.strOutputPath ++ n, cs.flatten) (by simp [levelFileWrites])
      simp only [goEntries, processEntry_fileE_ok hbn]
      rw [setFile_of_files_eq
            (hw (data.strOutputPath ++ n, cs.flatten) (by simp [levelFileWrites]))]
      rw [ih g ⟨data.strOutputPath, data.vecDirList, none⟩ rfl
            (by intro w h2; exact hw w (by simp [levelFileWrites, h2]))
            (by intro p hp; exact hd p (by simpa [levelDirPaths] using hp))
            (by intro w h2; exact hb w (by simp [levelFileWrites, h2]))]
      simp [dirPairs]
    | otherE n =>
      simp only [goEntries, processEntry_otherE]
      rw [ih g ⟨data.strOutputPath, data.vecDirList, none⟩ rfl
            (by simpa [levelFileWrites] using hw)
            (by simpa [levelDirPaths] using hd)
            (by simpa [levelFileWrites] using hb)]
      simp [dirPairs]

/-- Facts established by a successful `DownloadWildcard`-style call on
listing `entries` with local directory `ld`: local directories only grow;
every directory of the recursive footprint exists afterwards; file paths
outside the recursive write footprint are untouched; when the footprint
paths are duplicate-free every write is present with its final content; and
every written path admits opening. -/
def WildFacts (bad : String → Bool) (fs : LocalFS) (ld : String)
    (entries : List RemoteEntry) (r : WildResult) : Prop :=
  (∀ p ∈ fs.dirs, p ∈ r.fs.dirs) ∧
  (∀ p ∈ allDirPathsL (normDir ld) entries, p ∈ r.fs.dirs) ∧
  (∀ q, q ∉ (allFileWritesL (normDir ld) entries).map Prod.fst →
    r.fs.files q = fs.files q) ∧
  (((allFileWritesL (normDir ld) entries).map Prod.fst).Nodup →
    ∀ w ∈ allFileWritesL (normDir ld) entries, r.fs.files w.1 = some w.2) ∧
  (∀ w ∈ allFileWritesL (normDir ld) entries, bad w.1 = false)

/-- The analogous facts for the recursion loop over the discovered
subdirectories. -/
def DirsFacts (bad : String → Bool) (fs : LocalFS) (op : String)
    (pairs : List (String × List RemoteEntry)) (t : DirsResult) : Prop :=
  (∀ p ∈ fs.dirs, p ∈ t.fs.dirs) ∧
  (∀ p ∈ pairsDirPaths op pairs, p ∈ t.fs.dirs) ∧
  (∀ q, q ∉ (pairsFileWrites op pairs).map Prod.fst →
    t.fs.files q = fs.files q) ∧
  (((pairsFileWrites op pairs).map Prod.fst).Nodup →
    ∀ w ∈ pairsFileWrites op pairs, t.fs.files w.1 = some w.2) ∧
  (∀ w ∈ pairsFileWrites op pairs, bad w.1 = false)

/-- The recursion loop inherits the success facts from its child calls:
if every child call satisfies `WildFacts` on success and the loop
succeeded, the loop satisfies `DirsFacts` and every recorded child result
is `true`. -/
theorem dirsFacts_of_child (bad : String → Bool)
    (child : LocalFS → String → String → List RemoteEntry → WildResult)
    (op base : String) :
    ∀ (pairs : List (String × List RemoteEntry)),
      (∀ d cs, (d, cs) ∈ pairs → ∀ (fs' : LocalFS) (r' : WildResult),
        child fs' (op ++ d) (base ++ d ++ "/*") cs = r' → r'.ret = true →
        WildFacts bad fs' (op ++ d) cs r') →
      ∀ (fs : LocalFS) (t : DirsResult),
        DownloadDirsF child fs op base pairs = t → t.ret = true →
        DirsFacts bad fs op pairs t ∧ (∀ b ∈ t.rets, b = true) := by
  intro pairs
  induction pairs with
  | nil =>
    intro hchild fs t ht hret
    simp only [DownloadDirsF] at ht
    subst ht
    simp [DirsFacts, pairsDirPaths, pairsFileWrites]
  | cons p rest ihp =>
    rcases p with ⟨d, cs⟩
    intro hchild fs t ht hret
    simp only [DownloadDirsF] at ht
    subst ht
    simp only [Bool.and_eq_true] at hret
    obtain ⟨hr, ht'⟩ := hret
    have hcf : WildFacts bad fs (op ++ d) cs
        (child fs (op ++ d) (base ++ d ++ "/*") cs) :=
      hchild d cs (List.mem_cons_self _ _) fs _ rfl hr
    obtain ⟨⟨D1, D2, D3, D4, D5⟩, Drets⟩ :=
      ihp (fun d' cs' h' => hchild d' cs' (List.mem_cons_of_mem _ h'))
        (child fs (op ++ d) (base ++ d ++ "/*") cs).fs
        (DownloadDirsF child (child fs (op ++ d) (base ++ d ++ "/*") cs).fs op base rest)
        rfl ht'
    obtain ⟨C1, C2, C3, C4, C5⟩ := hcf
    refine ⟨⟨?_, ?_, ?_, ?_, ?_⟩, ?_⟩
    · intro q hq
      exact D1 q (C1 q hq)
    · intro q hq
      simp only [pairsDirPaths, List.mem_append] at hq
      rcases hq with hq | hq
      · exact D1 q (C2 q hq)
      · exact D2 q hq
    · intro q hq
      simp only [pairsFileWrites, List.map_append, List.mem_append] at hq
      push_neg at hq
      rw [D3 q hq.2, C3 q hq.1]
    · intro hnodup w hw
      simp only [pairsFileWrites, List.map_append] at hnodup
      rw [List.nodup_append] at hnodup
      simp only [pairsFileWrites, List.mem_append] at hw
      rcases hw with hw | hw
      · rw [D3 w.1 (fun hc => hnodup.2.2 (List.mem_map_of_mem Prod.fst hw) hc)]
        exact C4 hnodup.1 w hw
      · exact D4 hnodup.2.1 w hw
    · intro w hw
      simp only [pairsFileWrites, List.mem_append] at hw
      rcases hw with hw | hw
      · exact C5 w hw
      · exact D5 w hw
    · intro b hb
      simp only [List.mem_cons] at hb
      rcases hb with hb | hb
      · rw [hb, hr]
      · exact Drets b hb

theorem lastChar_append_star (s : String) : lastChar (s ++ "/*") = '*' := by
  show (s.data ++ ['/', '*']).getLastD ' ' = '*'
  simp

theorem performWildcard_isEmpty {bad : String → Bool} {fs : LocalFS}
    {data : WildcardTransfersCallbackData} {entries : List RemoteEntry}
    (h : entries.isEmpty = true) :
    performWildcard bad fs data entries = (.CURLE_REMOTE_FILE_NOT_FOUND, data, fs) := by
  simp [performWildcard, h]

/-- On a non-empty listing, a perform call that reports `CURLE_OK` ran the
whole enumeration without abort. -/
theorem performWildcard_ok_go {bad : String → Bool} {fs : LocalFS}
    {data : WildcardTransfersCallbackData} {entries : List RemoteEntry}
    (hne : entries.isEmpty = false)
    (h : (performWildcard bad fs data entries).1 = CURLcode.CURLE_OK) :
    goEntries bad fs data entries =
      (true, (performWildcard bad fs data entries).2.1,
       (performWildcard bad fs data entries).2.2) := by
  rcases hg : goEntries bad fs data entries with ⟨ok, d', f'⟩
  cases ok
  · rw [performWildcard, if_neg (by simp [hne])] at h
    simp [hg] at h
  · simp [performWildcard, hne, hg]

/-- On a non-empty listing the perform call never reports the
"remote resource not found" status. -/
theorem performWildcard_codes {bad : String → Bool} {fs : LocalFS}
    {data : WildcardTransfersCallbackData} {entries : List RemoteEntry}
    (hne : entries.isEmpty = false) :
    (performWildcard bad fs data entries).1 = CURLcode.CURLE_OK ∨
    (performWildcard bad fs data entries).1 = CURLcode.CURLE_CHUNK_FAILED := by
  rcases hg : goEntries bad fs data entries with ⟨ok, d', f'⟩
  cases ok
  · right
    simp [performWildcard, hne, hg]
  · left
    simp [performWildcard, hne, hg]

theorem not_mem_level_paths {op : String} {entries : List RemoteEntry} {q : String}
    (h : q ∉ (allFileWritesL op entries).map Prod.fst) :
    q ∉ (levelFileWrites op entries).map Prod.fst := by
  intro hq
  rcases List.mem_map.1 hq with ⟨w, hw, hwq⟩
  exact h (hwq ▸ List.mem_map_of_mem Prod.fst (mem_level_fileWrites hw))

theorem not_mem_pairs_paths {op : String} {entries : List RemoteEntry} {q : String}
    (h : q ∉ (allFileWritesL op entries).map Prod.fst) :
    q ∉ (pairsFileWrites op (dirPairs entries)).map Prod.fst := by
  intro hq
  rcases List.mem_map.1 hq with ⟨w, hw, hwq⟩
  exact h (hwq ▸ List.mem_map_of_mem Prod.fst (mem_pairs_fileWrites hw))

/-- The recursion step of the success-facts induction: a successful level
enumeration followed by a successful recursion loop establishes the
recursive footprint facts. -/
theorem wildFacts_recursion (cfg : ClientConfig) (bad : String → Bool) (fuel : Nat)
    (fs : LocalFS) (ld base : String) (entries : List RemoteEntry)
    (ihch : ∀ (fs' : LocalFS) (ld' pat' : String) (cs : List RemoteEntry) (r' : WildResult),
      DownloadWildcardF fuel cfg bad fs' ld' pat' cs = r' → r'.ret = true →
      lastChar pat' = '*' → WildFacts bad fs' ld' cs r')
    (hne : entries.isEmpty = false)
    (hok : (performWildcard bad fs ⟨normDir ld, [], none⟩ entries).1 = CURLcode.CURLE_OK) :
    ∀ t : DirsResult,
      DownloadDirsF (DownloadWildcardF fuel cfg bad)
        (performWildcard bad fs ⟨normDir ld, [], none⟩ entries).2.2
        (normDir ld) base (dirPairs entries) = t →
      t.ret = true →
      (∀ p ∈ fs.dirs, p ∈ t.fs.dirs) ∧
      (∀ p ∈ allDirPathsL (normDir ld) entries, p ∈ t.fs.dirs) ∧
      (∀ q, q ∉ (allFileWritesL (normDir ld) entries).map Prod.fst →
        t.fs.files q = fs.files q) ∧
      (((allFileWritesL (normDir ld) entries).map Prod.fst).Nodup →
        ∀ w ∈ allFileWritesL (normDir ld) entries, t.fs.files w.1 = some w.2) ∧
      (∀ w ∈ allFileWritesL (normDir ld) entries, bad w.1 = false) := by
  intro t ht htret
  have hgo := performWildcard_ok_go hne hok
  obtain ⟨GL2, GLframe, GLcontent, GLbad⟩ :=
    goEntriesSuccessFacts bad entries fs ⟨normDir ld, [], none⟩ _ _ hgo
  have hmonoGo := (goEntries_spec bad entries fs ⟨normDir ld, [], none⟩).2.2.2
  rw [hgo] at hmonoGo
  have hchild : ∀ d cs, (d, cs) ∈ dirPairs entries → ∀ (fs' : LocalFS) (r' : WildResult),
      DownloadWildcardF fuel cfg bad fs' (normDir ld ++ d) (base ++ d ++ "/*") cs = r' →
      r'.ret = true → WildFacts bad fs' (normDir ld ++ d) cs r' := by
    intro d cs _ fs' r' hrun' hret'
    exact ihch fs' _ _ cs r' hrun' hret' (lastChar_append_star _)
  obtain ⟨⟨D1, D2, D3, D4, D5⟩, _⟩ :=
    dirsFacts_of_child bad (DownloadWildcardF fuel cfg bad) (normDir ld) base
      (dirPairs entries) hchild _ t ht htret
  refine ⟨?_, ?_, ?_, ?_, ?_⟩
  · intro p hp
    exact D1 p (hmonoGo p hp)
  · intro p hp
    rcases List.mem_append.1 ((allDirPathsL_perm (normDir ld) entries).mem_iff.1 hp) with hp | hp
    · exact D1 p (GL2 p hp)
    · exact D2 p hp
  · intro q hq
    rw [D3 q (not_mem_pairs_paths hq), GLframe q (not_mem_level_paths hq)]
  · intro hnodup w hw
    obtain ⟨ndL, ndP, disj⟩ := nodup_fileWrites_decomp hnodup
    rcases List.mem_append.1 ((allFileWritesL_perm (normDir ld) entries).mem_iff.1 hw) with hw | hw
    · rw [D3 w.1 (fun hc => disj w.1 (List.mem_map_of_mem Prod.fst hw) hc)]
      exact GLcontent ndL w hw
    · exact D4 ndP w hw
  · intro w hw
    rcases List.mem_append.1 ((allFileWritesL_perm (normDir ld) entries).mem_iff.1 hw) with hw | hw
    · exact GLbad w hw
    · exact D5 w hw

/-- Success facts for the full recursive download: every successful
`DownloadWildcardF` run satisfies `WildFacts` (provided the pattern ends in
the wildcard, as every remote pattern of the engine does). -/
theorem wildcardSuccessFacts :
    ∀ (fuel : Nat) (cfg : ClientConfig) (bad : String → Bool) (fs : LocalFS)
      (ld pat : String) (entries : List RemoteEntry) (r : WildResult),
      DownloadWildcardF fuel cfg bad fs ld pat entries = r →
      r.ret = true → lastChar pat = '*' →
      WildFacts bad fs ld entries r := by
  intro fuel
  induction fuel with
  | zero =>
    intro cfg bad fs ld pat entries r hrun hret hstar
    simp only [DownloadWildcardF] at hrun
    subst hrun
    simp at hret
  | succ fuel ih =>
    intro cfg bad fs ld pat entries r hrun hret hstar
    simp only [DownloadWildcardF] at hrun
    by_cases hE : (ld.isEmpty || pat.isEmpty) = true
    · rw [if_pos hE] at hrun
      subst hrun
      simp at hret
    · rw [if_neg hE] at hrun
      by_cases hS : cfg.sessionInit = false
      · rw [if_pos hS] at hrun
        subst hrun
        simp at hret
      · rw [if_neg hS] at hrun
        by_cases hstat : fs.statIsDir (normDir ld) = true
        · rw [if_pos hstat] at hrun
          by_cases hErr :
              (performWildcard bad fs ⟨normDir ld, [], none⟩ entries).1 ≠ CURLcode.CURLE_OK ∧
              (performWildcard bad fs ⟨normDir ld, [], none⟩ entries).1 ≠
                CURLcode.CURLE_REMOTE_FILE_NOT_FOUND
          · rw [if_pos hErr] at hrun
            subst hrun
            simp at hret
          · rw [if_neg hErr] at hrun
            by_cases hRec :
                (performWildcard bad fs ⟨normDir ld, [], none⟩ entries).2.1.vecDirList ≠ [] ∧
                lastChar pat = '*'
            · rw [if_pos hRec] at hrun
              by_cases hne : entries.isEmpty = true
              · exact absurd (by rw [performWildcard_isEmpty hne]) hRec.1
              · have hne' : entries.isEmpty = false := by simpa using hne
                have hok : (performWildcard bad fs ⟨normDir ld, [], none⟩ entries).1 =
                    CURLcode.CURLE_OK := by
                  rcases not_and_or.1 hErr with h2 | h2
                  · exact not_not.1 h2
                  · have hnf := not_not.1 h2
                    rcases @performWildcard_codes bad fs ⟨normDir ld, [], none⟩ entries hne'
                      with h3 | h3 <;> rw [hnf] at h3 <;> cases h3
                subst hrun
                have hfacts := wildFacts_recursion cfg bad fuel fs ld _ entries
                  (fun fs' ld' pat' cs r' h1 h2 h3 => ih cfg bad fs' ld' pat' cs r' h1 h2 h3)
                  hne' hok _ rfl hret
                exact hfacts
            · rw [if_neg hRec] at hrun
              subst hrun
              by_cases hne : entries.isEmpty = true
              · have hempty : entries = [] := by
                  cases entries
                  · rfl
                  · simp at hne
                subst hempty
                rw [@performWildcard_isEmpty bad fs ⟨normDir ld, [], none⟩ [] rfl]
                refine ⟨fun p hp => hp, ?_, ?_, ?_, ?_⟩ <;>
                  simp [allDirPathsL, allFileWritesL]
              · have hne' : entries.isEmpty = false := by simpa using hne
                have hok : (performWildcard bad fs ⟨normDir ld, [], none⟩ entries).1 =
                    CURLcode.CURLE_OK := by
                  rcases not_and_or.1 hErr with h2 | h2
                  · exact not_not.1 h2
                  · have hnf := not_not.1 h2
                    rcases @performWildcard_codes bad fs ⟨normDir ld, [], none⟩ entries hne'
                      with h3 | h3 <;> rw [hnf] at h3 <;> cases h3
                have hvecnil : (performWildcard bad fs ⟨normDir ld, [], none⟩ entries).2.1.vecDirList = [] := by
                  rcases not_and_or.1 hRec with h2 | h2
                  · exact not_not.1 h2
                  · exact absurd hstar h2
                have hpairs : dirPairs entries = [] := by
                  have := performWildcard_ok_vecDirList hok
                  rw [hvecnil] at this
                  exact List.map_eq_nil_iff.1 this.symm
                have hgo := performWildcard_ok_go hne' hok
                obtain ⟨GL2, GLframe, GLcontent, GLbad⟩ :=
                  goEntriesSuccessFacts bad entries fs ⟨normDir ld, [], none⟩ _ _ hgo
                have hmonoGo := (goEntries_spec bad entries fs ⟨normDir ld, [], none⟩).2.2.2
                rw [hgo] at hmonoGo
                refine ⟨hmonoGo, ?_, ?_, ?_, ?_⟩
                · intro p hp
                  rcases List.mem_append.1 ((allDirPathsL_perm (normDir ld) entries).mem_iff.1 hp)
                    with hp | hp
                  · exact GL2 p hp
                  · rw [hpairs] at hp
                    simp [pairsDirPaths] at hp
                · intro q hq
                  exact GLframe q (not_mem_level_paths hq)
                · intro hnodup w hw
                  obtain ⟨ndL, _, _⟩ := nodup_fileWrites_decomp hnodup
                  rcases List.mem_append.1 ((allFileWritesL_perm (normDir ld) entries).mem_iff.1 hw)
                    with hw | hw
                  · exact GLcontent ndL w hw
                  · rw [hpairs] at hw
                    simp [pairsFileWrites] at hw
                · intro w hw
                  rcases List.mem_append.1 ((allFileWritesL_perm (normDir ld) entries).mem_iff.1 hw)
                    with hw | hw
                  · exact GLbad w hw
                  · rw [hpairs] at hw
                    simp [pairsFileWrites] at hw
        · rw [if_neg hstat] at hrun
          subst hrun
          simp at hret

/-- Replaying the recursion loop over a filesystem `g` that already holds
every write of the loop's footprint (with final contents) and every
directory of the final state leaves `g` unchanged and reproduces the
result, provided each child call has the replay property. -/
theorem dirsRestore_of_child (bad : String → Bool)
    (child : LocalFS → String → String → List RemoteEntry → WildResult)
    (op base : String) :
    ∀ (pairs : List (String × List RemoteEntry)),
      (∀ d cs, (d, cs) ∈ pairs → ∀ (fs' : LocalFS) (r' : WildResult),
        child fs' (op ++ d) (base ++ d ++ "/*") cs = r' → r'.ret = true →
        WildFacts bad fs' (op ++ d) cs r') →
      (∀ d cs, (d, cs) ∈ pairs → ∀ (fs' : LocalFS) (r' : WildResult) (g : LocalFS),
        child fs' (op ++ d) (base ++ d ++ "/*") cs = r' → r'.ret = true →
        ((allFileWritesL (normDir (op ++ d)) cs).map Prod.fst).Nodup →
        (∀ w ∈ allFileWritesL (normDir (op ++ d)) cs, g.files w.1 = some w.2) →
        (∀ p ∈ r'.fs.dirs, p ∈ g.dirs) →
        child g (op ++ d) (base ++ d ++ "/*") cs = { r' with fs := g }) →
      ∀ (fs : LocalFS) (t : DirsResult) (g : LocalFS),
        DownloadDirsF child fs op base pairs = t → t.ret = true →
        ((pairsFileWrites op pairs).map Prod.fst).Nodup →
        (∀ w ∈ pairsFileWrites op pairs, g.files w.1 = some w.2) →
        (∀ p ∈ t.fs.dirs, p ∈ g.dirs) →
        DownloadDirsF child g op base pairs = { t with fs := g } := by
  intro pairs
  induction pairs with
  | nil =>
    intro _ _ fs t g ht _ _ _ _
    simp only [DownloadDirsF] at ht
    subst ht
    rfl
  | cons p rest ihp =>
    rcases p with ⟨d, cs⟩
    intro hchildF hchildR fs t g ht htret hnodup hgw hgd
    rcases hR : child fs (op ++ d) (base ++ d ++ "/*") cs with ⟨rret, rfs, rlogs, rcalls, rrets, rpc⟩
    rcases hT : DownloadDirsF child rfs op base rest with ⟨tret, tfs, tlogs, tcalls, trets, tpc⟩
    simp only [DownloadDirsF, hR, hT] at ht
    subst ht
    simp only [Bool.and_eq_true] at htret
    obtain ⟨hr1, ht1⟩ := htret
    subst hr1
    have hnodup2 := hnodup
    simp only [pairsFileWrites, List.map_append] at hnodup2
    rw [List.nodup_append] at hnodup2
    have hrestDirs : ∀ q ∈ rfs.dirs, q ∈ tfs.dirs := by
      have := (dirsFacts_of_child bad child op base rest
        (fun d' cs' h' => hchildF d' cs' (List.mem_cons_of_mem _ h'))
        rfs ⟨tret, tfs, tlogs, tcalls, trets, tpc⟩ hT ht1).1.1
      simpa using this
    have hc : child g (op ++ d) (base ++ d ++ "/*") cs =
        { (⟨true, rfs, rlogs, rcalls, rrets, rpc⟩ : WildResult) with fs := g } := by
      refine hchildR d cs (List.mem_cons_self _ _) fs _ g hR rfl hnodup2.1 ?_ ?_
      · intro w hw
        exact hgw w (by simp [pairsFileWrites, hw])
      · intro q hq
        exact hgd q (hrestDirs q hq)
    have hrest : DownloadDirsF child g op base rest =
        { (⟨tret, tfs, tlogs, tcalls, trets, tpc⟩ : DirsResult) with fs := g } := by
      refine ihp (fun d' cs' h' => hchildF d' cs' (List.mem_cons_of_mem _ h'))
        (fun d' cs' h' => hchildR d' cs' (List.mem_cons_of_mem _ h'))
        rfs ⟨tret, tfs, tlogs, tcalls, trets, tpc⟩ g hT ht1 hnodup2.2.1 ?_ (by simpa using hgd)
      intro w hw
      exact hgw w (by simp [pairsFileWrites, hw])
    simp only [DownloadDirsF, hc, hrest]

theorem statIsDir_of_subset {fs g : LocalFS} {p : String}
    (h : fs.statIsDir p = true) (hsub : ∀ q ∈ fs.dirs, q ∈ g.dirs) :
    g.statIsDir p = true := by
  unfold LocalFS.statIsDir at h ⊢
  exact List.elem_iff.2 (hsub _ (List.elem_iff.1 h))

/-- Replaying the recursion loop of a successful run on the filesystem `g`
that holds the whole write footprint and all final directories. -/
theorem wildRestore_recursion (cfg : ClientConfig) (bad : String → Bool) (fuel : Nat)
    (ld base : String) (entries : List RemoteEntry) (g : LocalFS)
    (ihR : ∀ (fs' : LocalFS) (ld' pat' : String) (cs : List RemoteEntry)
      (r' : WildResult) (g' : LocalFS),
      DownloadWildcardF fuel cfg bad fs' ld' pat' cs = r' → r'.ret = true →
      lastChar pat' = '*' →
      ((allFileWritesL (normDir ld') cs).map Prod.fst).Nodup →
      (∀ w ∈ allFileWritesL (normDir ld') cs, g'.files w.1 = some w.2) →
      (∀ p ∈ r'.fs.dirs, p ∈ g'.dirs) →
      DownloadWildcardF fuel cfg bad g' ld' pat' cs = { r' with fs := g' })
    (hnodup : ((allFileWritesL (normDir ld) entries).map Prod.fst).Nodup)
    (hgw : ∀ w ∈ allFileWritesL (normDir ld) entries, g.files w.1 = some w.2)
    (fs1 : LocalFS) (t1 : DirsResult)
    (ht1 : DownloadDirsF (DownloadWildcardF fuel cfg bad) fs1 (normDir ld) base
      (dirPairs entries) = t1)
    (ht1ret : t1.ret = true)
    (hgd : ∀ p ∈ t1.fs.dirs, p ∈ g.dirs) :
    DownloadDirsF (DownloadWildcardF fuel cfg bad) g (normDir ld) base
      (dirPairs entries) = { t1 with fs := g } := by
  refine dirsRestore_of_child bad (DownloadWildcardF fuel cfg bad) (normDir ld) base
    (dirPairs entries) ?_ ?_ fs1 t1 g ht1 ht1ret
    (nodup_fileWrites_decomp hnodup).2.1
    (fun w hw => hgw w (mem_pairs_fileWrites hw)) hgd
  · intro d cs _ fs' r' h1 h2
    exact wildcardSuccessFacts fuel cfg bad fs' _ _ cs r' h1 h2 (lastChar_append_star _)
  · intro d cs _ fs' r' g' h1 h2 h3 h4 h5
    exact ihR fs' _ _ cs r' g' h1 h2 (lastChar_append_star _) h3 h4 h5

/-- Replay property of the whole engine: a successful run whose write
footprint has duplicate-free paths can be replayed on any filesystem `g`
that already holds the footprint (in particular on its own final state),
reproducing the same result with `g` unchanged. -/
theorem wildcardRestore :
    ∀ (fuel : Nat) (cfg : ClientConfig) (bad : String → Bool) (fs : LocalFS)
      (ld pat : String) (entries : List RemoteEntry) (r : WildResult) (g : LocalFS),
      DownloadWildcardF fuel cfg bad fs ld pat entries = r →
      r.ret = true → lastChar pat = '*' →
      ((allFileWritesL (normDir ld) entries).map Prod.fst).Nodup →
      (∀ w ∈ allFileWritesL (normDir ld) entries, g.files w.1 = some w.2) →
      (∀ p ∈ r.fs.dirs, p ∈ g.dirs) →
      DownloadWildcardF fuel cfg bad g ld pat entries = { r with fs := g } := by
  intro fuel
  induction fuel with
  | zero =>
    intro cfg bad fs ld pat entries r g hrun hret _ _ _ _
    simp only [DownloadWildcardF] at hrun
    subst hrun
    simp at hret
  | succ fuel ih =>
    intro cfg bad fs ld pat entries r g hrun hret hstar hnodup hgw hgd
    obtain ⟨P1, P2, P3, P4, P5⟩ :=
      wildcardSuccessFacts (fuel + 1) cfg bad fs ld pat entries r hrun hret hstar
    simp only [DownloadWildcardF] at hrun ⊢
    by_cases hE : (ld.isEmpty || pat.isEmpty) = true
    · rw [if_pos hE] at hrun
      subst hrun
      simp at hret
    · rw [if_neg hE] at hrun ⊢
      by_cases hS : cfg.sessionInit = false
      · rw [if_pos hS] at hrun
        subst hrun
        simp at hret
      · rw [if_neg hS] at hrun ⊢
        by_cases hstat : fs.statIsDir (normDir ld) = true
        · rw [if_pos hstat] at hrun
          have hstat2 : g.statIsDir (normDir ld) = true :=
            statIsDir_of_subset hstat (fun q hq => hgd q (P1 q hq))
          rw [if_pos hstat2]
          by_cases hne : entries.isEmpty = true
          · rw [@performWildcard_isEmpty bad fs ⟨normDir ld, [], none⟩ entries hne] at hrun
            rw [@performWildcard_isEmpty bad g ⟨normDir ld, [], none⟩ entries hne]
            rw [if_neg (by simp)] at hrun
            rw [if_neg (by simp)]
            rw [if_neg (by simp)] at hrun
            rw [if_neg (by simp)]
            subst hrun
            rfl
          · have hne' : entries.isEmpty = false := by simpa using hne
            rcases @performWildcard_codes bad fs ⟨normDir ld, [], none⟩ entries hne'
              with hok | hcf
            · have hErrF : ¬((performWildcard bad fs ⟨normDir ld, [], none⟩ entries).1 ≠
                    CURLcode.CURLE_OK ∧
                  (performWildcard bad fs ⟨normDir ld, [], none⟩ entries).1 ≠
                    CURLcode.CURLE_REMOTE_FILE_NOT_FOUND) := by
                rw [hok]
                simp
              rw [if_neg hErrF] at hrun
              have hvec1 := performWildcard_ok_vecDirList hok
              have hrestore := goEntriesRestore bad entries g ⟨normDir ld, [], none⟩ rfl
                (fun w hw => hgw w (mem_level_fileWrites hw))
                (fun p hp => hgd p (P2 p (mem_level_dirPaths hp)))
                (fun w hw => P5 w (mem_level_fileWrites hw))
              have hperform2 : performWildcard bad g ⟨normDir ld, [], none⟩ entries =
                  (CURLcode.CURLE_OK,
                   ⟨normDir ld, (dirPairs entries).map Prod.fst, none⟩, g) := by
                rw [performWildcard, if_neg (by simp [hne'])]
                rw [hrestore]
                simp
              rw [hperform2]
              rw [if_neg (by simp)]
              by_cases hRecN : (dirPairs entries).map Prod.fst = []
              · have hRec1 : ¬((performWildcard bad fs ⟨normDir ld, [], none⟩ entries).2.1.vecDirList ≠ [] ∧
                    lastChar pat = '*') := by
                  rw [hvec1, hRecN]
                  simp
                rw [if_neg hRec1] at hrun
                rw [if_neg (by rw [hRecN]; simp)]
                subst hrun
                rfl
              · have hRec1 : (performWildcard bad fs ⟨normDir ld, [], none⟩ entries).2.1.vecDirList ≠ [] ∧
                    lastChar pat = '*' := by
                  rw [hvec1]
                  exact ⟨hRecN, hstar⟩
                rw [if_pos hRec1] at hrun
                rw [if_pos (by simpa using And.intro hRecN hstar)]
                have ht1ret := hret
                rw [← hrun] at ht1ret
                have hgd1 := hgd
                rw [← hrun] at hgd1
                have hstep := wildRestore_recursion cfg bad fuel ld _ entries g
                  (fun fs' ld' pat' cs r' g' h1 h2 h3 h4 h5 h6 =>
                    ih cfg bad fs' ld' pat' cs r' g' h1 h2 h3 h4 h5 h6)
                  hnodup hgw _ _ rfl ht1ret hgd1
                rw [hstep]
                rw [← hrun]
            · exfalso
              have hErrT : (performWildcard bad fs ⟨normDir ld, [], none⟩ entries).1 ≠
                    CURLcode.CURLE_OK ∧
                  (performWildcard bad fs ⟨normDir ld, [], none⟩ entries).1 ≠
                    CURLcode.CURLE_REMOTE_FILE_NOT_FOUND := by
                rw [hcf]
                simp
              rw [if_pos hErrT] at hrun
              subst hrun
              simp at hret
        · rw [if_neg hstat] at hrun
          subst hrun
          simp at hret

/-! Claim theorem C8. -/

/-- C8: running the wildcard download twice into the same local directory
yields the same result as running it once: if the first run succeeded, the
second run (from the filesystem produced by the first) succeeds as well,
overwrites without error (directories are reused via the `EEXIST`
tolerance, files are reopened with truncate-on-open semantics) and leaves
the filesystem literally unchanged.  The pattern ends with the wildcard
(spec invariant on `RemotePattern`) and the remote tree assigns distinct
local paths to distinct files (true of any directory tree, whose entries
have unique per-level names). -/
theorem downloadWildcard_idempotent
    (cfg : ClientConfig) (bad : String → Bool) (fs : LocalFS)
    (ld pat : String) (entries : List RemoteEntry)
    (hstar : lastChar pat = '*')
    (hnodup : ((allFileWritesL (normDir ld) entries).map Prod.fst).Nodup)
    (hret : (DownloadWildcard cfg bad fs ld pat entries).ret = true) :
    DownloadWildcard cfg bad (DownloadWildcard cfg bad fs ld pat entries).fs
        ld pat entries =
      DownloadWildcard cfg bad fs ld pat entries := by
  obtain ⟨P1, P2, P3, P4, P5⟩ :=
    wildcardSuccessFacts (sizeL entries + 1) cfg bad fs ld pat entries
      (DownloadWildcard cfg bad fs ld pat entries) rfl hret hstar
  exact wildcardRestore (sizeL entries + 1) cfg bad fs ld pat entries
    (DownloadWildcard cfg bad fs ld pat entries)
    (DownloadWildcard cfg bad fs ld pat entries).fs
    rfl hret hstar hnodup (P4 hnodup) (fun p hp => hp)

/-- Witness for C8: a concrete tree with a subdirectory and two files
downloads successfully, and downloading again into the produced filesystem
reproduces it exactly. -/
theorem downloadWildcard_idempotent_witness :
    lastChar "r/*" = '*' ∧
    ((allFileWritesL (normDir "out")
        [.dirE "sub" [.fileE "a" [[1]]], .fileE "b" [[2]]]).map Prod.fst).Nodup ∧
    (DownloadWildcard ⟨true, true, "srv"⟩ (fun _ => false) ⟨["out"], fun _ => none⟩
        "out" "r/*" [.dirE "sub" [.fileE "a" [[1]]], .fileE "b" [[2]]]).ret = true ∧
    DownloadWildcard ⟨true, true, "srv"⟩ (fun _ => false)
        (DownloadWildcard ⟨true, true, "srv"⟩ (fun _ => false) ⟨["out"], fun _ => none⟩
          "out" "r/*" [.dirE "sub" [.fileE "a" [[1]]], .fileE "b" [[2]]]).fs
        "out" "r/*" [.dirE "sub" [.fileE "a" [[1]]], .fileE "b" [[2]]] =
      DownloadWildcard ⟨true, true, "srv"⟩ (fun _ => false) ⟨["out"], fun _ => none⟩
        "out" "r/*" [.dirE "sub" [.fileE "a" [[1]]], .fileE "b" [[2]]] :=
  ⟨by decide, by decide, by decide,
   downloadWildcard_idempotent ⟨true, true, "srv"⟩ (fun _ => false)
     ⟨["out"], fun _ => none⟩ "out" "r/*"
     [.dirE "sub" [.fileE "a" [[1]]], .fileE "b" [[2]]]
     (by decide) (by decide) (by decide)⟩

end FTPSpec
